import Mathlib

/-!
The dispatch core of the go-slackbot router.

A shallow embedding of `router.go`, `eventFilter.go` and `routerEventHandlers.go`.

* Go values of type `interface{}` are modelled by `Event`: `none` is the nil interface,
  `some v` a value `v` whose dynamic type is `GoValue.typeOf v`.
* A handler is Go code that may call its continuation `next` any number of times and then
  returns an `error`.  It is modelled by the tree `Act` of its calls to `next`, over a
  state `ω` that stands for whatever the handlers share outside the router.
* `handleEvent` threads a `DispatchState`: the closure variable `returnError`, the
  handlers' state, and a history `calls` of every execution of `hf.handlerFunc(...)`.
-/

namespace Slackbot

/-! ## Go values reaching the router -/

/-- The struct types of package `slackevents` that `eventFilter.go` names, and any other
struct type (by name). -/
inductive EventKind where
  | AppHomeOpenedEvent
  | AppMentionEvent
  | LinkSharedEvent
  | MemberJoinedChannelEvent
  | MessageEvent
  | PinAddedEvent
  | PinRemovedEvent
  | otherStruct (name : String)
  deriving DecidableEq, Repr

/-- A Go dynamic type: a struct type or a pointer type. -/
inductive GoType where
  | named (k : EventKind)
  | pointer (elem : GoType)
  deriving DecidableEq, Repr

/-- The fields of an event struct: `Channel`, and the remaining fields uninterpreted. -/
structure EventData where
  Channel : String
  rest : String
  deriving DecidableEq, Repr

/-- A non-nil Go value: a struct, the address of a value, or a typed nil pointer. -/
inductive GoValue where
  | structVal (k : EventKind) (d : EventData)
  | addr (v : GoValue)
  | nilPtr (elem : GoType)
  deriving DecidableEq, Repr

/-- The dynamic type of a value. -/
def GoValue.typeOf : GoValue → GoType
  | .structVal k _ => .named k
  | .addr v => .pointer v.typeOf
  | .nilPtr t => .pointer t

/-- A value of type `interface{}`; `none` is the nil interface. -/
abbrev Event := Option GoValue

/-- Go `reflect.TypeOf`: the dynamic type, nil for the nil interface. -/
def reflectTypeOf (evt : Event) : Option GoType :=
  evt.map GoValue.typeOf

/-- The zero value of a type. -/
def zeroValue : GoType → GoValue
  | .named k => .structVal k { Channel := "", rest := "" }
  | .pointer t => .nilPtr t

/-- Go `new(T)`: a pointer to a fresh zero value of type `T`. -/
def goNew (t : GoType) : Event :=
  some (.addr (zeroValue t))

/-- A value of type `*T` for a struct type `T`: nil, or pointing to the struct's fields. -/
abbrev StructPtr := Option EventData

/-- The `interface{}` value holding a `*k` pointer. -/
def ptrEvent (k : EventKind) : StructPtr → Event
  | some d => some (.addr (.structVal k d))
  | none => some (.nilPtr (.named k))

/-- The type assertion `evt.(*k)`: the pointer when the dynamic type is `*k`. -/
def assertPtr (k : EventKind) : Event → Option StructPtr
  | some (.addr (.structVal k2 d)) => if k2 = k then some (some d) else none
  | some (.nilPtr (.named k2)) => if k2 = k then some none else none
  | _ => none

/-- The name of a struct type as `%T` prints it. -/
def EventKind.goName : EventKind → String
  | .AppHomeOpenedEvent => "slackevents.AppHomeOpenedEvent"
  | .AppMentionEvent => "slackevents.AppMentionEvent"
  | .LinkSharedEvent => "slackevents.LinkSharedEvent"
  | .MemberJoinedChannelEvent => "slackevents.MemberJoinedChannelEvent"
  | .MessageEvent => "slackevents.MessageEvent"
  | .PinAddedEvent => "slackevents.PinAddedEvent"
  | .PinRemovedEvent => "slackevents.PinRemovedEvent"
  | .otherStruct name => name

/-- The name of a type as `%T` prints it. -/
def GoType.goName : GoType → String
  | .named k => k.goName
  | .pointer t => "*" ++ t.goName

/-- The verb `%T` of package `fmt`. -/
def fmtT (evt : Event) : String :=
  match reflectTypeOf evt with
  | none => "<nil>"
  | some t => t.goName

/-- A Go `error`: `none` is nil, `some s` an error whose text is `s`. -/
abbrev GoError := Option String

/-- The `*slack.Client` handle, identified by its address. -/
structure Client where
  addr : Nat
  deriving DecidableEq, Repr

/-- The fields of `slack.SlashCommand` the router reads (`Command`) and the text. -/
structure SlashCommand where
  Command : String
  Text : String
  deriving DecidableEq, Repr

/-- A `slack.Msg`. -/
structure Msg where
  Text : String
  deriving DecidableEq, Repr

/-! ## Handlers -/

/-- What a handler body does, seen from the router: it returns an error (`ret`), or it
calls `next(err)` and goes on from the state that call leaves (`callNext`).  The first
field of both is the handlers' state at that point. -/
inductive Act (ω : Type) where
  | ret (w : ω) (result : GoError)
  | callNext (w : ω) (err : GoError) (resume : ω → Act ω)

/-- The Go type `func(evt interface{}, api *slack.Client, next func(error)) error`. -/
abbrev HandlerFunc (ω : Type) := Event → Client → ω → Act ω

/-- The Go type `func(evt *T, api *slack.Client, next func(error)) error`. -/
abbrev TypedHandlerFunc (ω : Type) := StructPtr → Client → ω → Act ω

/-- The Go type `EventFilter`. -/
abbrev EventFilter := Event → Bool

structure EventHandlerFunc (ω : Type) where
  handlerFunc : HandlerFunc ω
  filters : List EventFilter

structure CommandHandlerFunc (ω : Type) where
  slashCommand : String
  handlerFunc : SlashCommand → Client → ω → (Option Msg × GoError) × ω

structure Router (ω : Type) where
  api : Client
  handlers : List (EventHandlerFunc ω)
  commandHandlers : List (CommandHandlerFunc ω)

/-! ## eventFilter.go -/

def NewEventTypeEventFilter (example_ : Event) : EventFilter :=
  fun evt => decide (reflectTypeOf evt = reflectTypeOf example_)

/-- The type assertion `evt.(k)` to a struct type: the struct when the dynamic type is
`k`; `none` stands for the run-time panic of a failed assertion. -/
def assertStruct (k : EventKind) : Event → Option EventData
  | some (.structVal k2 d) => if k2 = k then some d else none
  | _ => none

/-- The body of the function returned by `NewChannelEventFilter`: the type switch of
lines 20-39 with the assertion of each case; `none` stands for a panic. -/
def channelFilterBody (channelId : String) (evt : Event) : Option Bool :=
  match reflectTypeOf evt with
  | some (.named .AppHomeOpenedEvent) =>
    (assertStruct .AppHomeOpenedEvent evt).map (fun e => decide (e.Channel = channelId))
  | some (.named .AppMentionEvent) =>
    (assertStruct .AppMentionEvent evt).map (fun e => decide (e.Channel = channelId))
  | some (.named .LinkSharedEvent) =>
    (assertStruct .LinkSharedEvent evt).map (fun e => decide (e.Channel = channelId))
  | some (.named .MemberJoinedChannelEvent) =>
    (assertStruct .MemberJoinedChannelEvent evt).map (fun e => decide (e.Channel = channelId))
  | some (.named .MessageEvent) =>
    (assertStruct .MessageEvent evt).map (fun e => decide (e.Channel = channelId))
  | some (.named .PinAddedEvent) =>
    (assertStruct .PinAddedEvent evt).map (fun e => decide (e.Channel = channelId))
  | some (.named .PinRemovedEvent) =>
    (assertStruct .PinRemovedEvent evt).map (fun e => decide (e.Channel = channelId))
  | _ => some false

def NewChannelEventFilter (channelId : String) : EventFilter :=
  fun evt => (channelFilterBody channelId evt).getD false

/-! ## router.go -/

def NewRouter {ω : Type} (api : Client) : Router ω :=
  { api := api, handlers := [], commandHandlers := [] }

def Router.AddHandler {ω : Type} (r : Router ω) (f : HandlerFunc ω)
    (filters : List EventFilter) : Router ω :=
  { r with handlers := r.handlers ++ [{ handlerFunc := f, filters := filters }] }

def Router.AddCommandHandler {ω : Type} (r : Router ω) (slashCommand : String)
    (handlerFunc : SlashCommand → Client → ω → (Option Msg × GoError) × ω) : Router ω :=
  { r with commandHandlers := r.commandHandlers ++ [⟨slashCommand, handlerFunc⟩] }

/-- The loop of `doesEventMatch`, with the current value of `matched`. -/
def doesEventMatchLoop (evt : Event) : List EventFilter → Bool → Bool
  | [], matched => matched
  | filter :: rest, _ =>
    let matched := filter evt
    if matched then matched else doesEventMatchLoop evt rest matched

def doesEventMatch {ω : Type} (hf : EventHandlerFunc ω) (evt : Event) : Bool :=
  doesEventMatchLoop evt hf.filters true

/-- One execution of line 101, `hf.handlerFunc(evt, r.api, next)`. -/
structure HandlerCall where
  idx : Nat
  evt : Event
  api : Client
  deriving DecidableEq, Repr

/-- The state of one call of `handleEvent`. -/
structure DispatchState (ω : Type) where
  returnError : GoError
  world : ω
  calls : List HandlerCall

/-- Running a handler body with continuation `next`: the state it leaves and the error
it returns. -/
def runAct {ω : Type} (next : GoError → DispatchState ω → DispatchState ω) :
    Act ω → DispatchState ω → DispatchState ω × GoError
  | .ret w result, s => ({ s with world := w }, result)
  | .callNext w err resume, s =>
    let s1 := next err { s with world := w }
    runAct next (resume s1.world) s1

/-- The closure `createHandlerFunc`, on the handlers from index `idx` on. -/
def dispatchFrom {ω : Type} (api : Client) (evt : Event) :
    List (EventHandlerFunc ω) → Nat → GoError → DispatchState ω → DispatchState ω
  | [], _, err, s => { s with returnError := err }
  | hf :: rest, idx, err, s =>
    let next := fun (err : GoError) (s : DispatchState ω) =>
      dispatchFrom api evt rest (idx + 1) err s
    let s1 := if !doesEventMatch hf evt then next err s else s
    let s2 := { s1 with calls := s1.calls ++ [{ idx := idx, evt := evt, api := api }] }
    (runAct next (hf.handlerFunc evt api s2.world) s2).1

def createHandlerFunc {ω : Type} (r : Router ω) (idx : Nat) (evt : Event) (err : GoError)
    (s : DispatchState ω) : DispatchState ω :=
  dispatchFrom r.api evt (r.handlers.drop idx) idx err s

/-- The state in which `handleEvent` starts: `returnError` is nil, nothing was called. -/
def DispatchState.init {ω : Type} (w : ω) : DispatchState ω :=
  { returnError := none, world := w, calls := [] }

/-- The whole run of `handleEvent` from handlers' state `w`. -/
def handleEventRun {ω : Type} (r : Router ω) (evt : Event) (w : ω) : DispatchState ω :=
  createHandlerFunc r 0 evt none (DispatchState.init w)

def handleEvent {ω : Type} (r : Router ω) (evt : Event) (w : ω) : GoError :=
  (handleEventRun r evt w).returnError

/-- The state of one call of `handleCommand`: the handlers' state and the indices of the
command handlers that were executed (line 112). -/
structure CommandState (ω : Type) where
  world : ω
  invoked : List Nat

/-- The `range` loop of `handleCommand`, at the entry of index `i`. -/
def handleCommandLoop {ω : Type} (api : Client) (cmd : SlashCommand) :
    List (CommandHandlerFunc ω) → Nat → CommandState ω →
      (Option Msg × GoError) × CommandState ω
  | [], _, s => ((none, some ("no handler for command " ++ cmd.Command)), s)
  | h :: rest, i, s =>
    if h.slashCommand = cmd.Command then
      let out := h.handlerFunc cmd api s.world
      (out.1, { world := out.2, invoked := s.invoked ++ [i] })
    else handleCommandLoop api cmd rest (i + 1) s

def handleCommand {ω : Type} (r : Router ω) (cmd : SlashCommand) (s : CommandState ω) :
    (Option Msg × GoError) × CommandState ω :=
  handleCommandLoop r.api cmd r.commandHandlers 0 s

/-! ## routerEventHandlers.go -/

/-- The statement pair `f(evt2, api, next); return nil`: what `f` does, its result
dropped. -/
def Act.discardResult {ω : Type} : Act ω → Act ω
  | .ret w _ => .ret w none
  | .callNext w err resume => .callNext w err (fun w1 => (resume w1).discardResult)

/-- The wrapper `ff` of the typed adapters, for the struct type `k` printed as `label`.
`fmtV` is the verb `%v` of package `fmt`. -/
def typeAssertingWrapper {ω : Type} (k : EventKind) (label : String)
    (fmtV : Event → String) (f : TypedHandlerFunc ω) : HandlerFunc ω :=
  fun evt api w =>
    match assertPtr k evt with
    | some evt2 => (f evt2 api w).discardResult
    | none =>
      .ret w (some ("expected " ++ label ++ ", but evt was " ++ fmtT evt ++ ": " ++ fmtV evt))

def Router.AddAppMentionEventHandler {ω : Type} (r : Router ω) (fmtV : Event → String)
    (f : TypedHandlerFunc ω) : Router ω :=
  let ff := typeAssertingWrapper .AppMentionEvent "AppMentionEvent" fmtV f
  r.AddHandler ff [NewEventTypeEventFilter (goNew (.pointer (.named .AppMentionEvent)))]

def Router.AddMessageEventHandler {ω : Type} (r : Router ω) (fmtV : Event → String)
    (f : TypedHandlerFunc ω) : Router ω :=
  let ff := typeAssertingWrapper .MessageEvent "MessageEvent" fmtV f
  r.AddHandler ff [NewEventTypeEventFilter (goNew (.pointer (.named .MessageEvent)))]

/-! ## Vocabulary of the properties -/

/-- On every path the handler body calls its continuation exactly `n` times. -/
def Act.callsExactly {ω : Type} : Act ω → Nat → Prop
  | .ret _ _, 0 => True
  | .ret _ _, _ + 1 => False
  | .callNext _ _ _, 0 => False
  | .callNext _ _ resume, n + 1 => ∀ w, (resume w).callsExactly n

/-- On every path the handler body calls its continuation at most `n` times. -/
def Act.callsAtMost {ω : Type} : Act ω → Nat → Prop
  | .ret _ _, _ => True
  | .callNext _ _ _, 0 => False
  | .callNext _ _ resume, n + 1 => ∀ w, (resume w).callsAtMost n

/-- A handler body that keeps a record `l` next to the handlers' state `ω`. -/
def Act.withLog {ω α : Type} (l : List α) : Act ω → Act (ω × List α)
  | .ret w result => .ret (w, l) result
  | .callNext w err resume => .callNext (w, l) err (fun p => (resume p.1).withLog p.2)

/-- The typed handler `f`, recording the arguments of each of its invocations. -/
def recordingTyped {ω : Type} (f : TypedHandlerFunc ω) :
    TypedHandlerFunc (ω × List (StructPtr × Client)) :=
  fun evt api p => (f evt api p.1).withLog (p.2 ++ [(evt, api)])

/-- How many times the handler of entry `i` was executed. -/
def timesCalled (calls : List HandlerCall) (i : Nat) : Nat :=
  (calls.filter (fun c => c.idx = i)).length

/-- The calls made by the handlers `idx, …, idx + n - 1` in turn. -/
def callsInOrder (evt : Event) (api : Client) (idx n : Nat) : List HandlerCall :=
  (List.range' idx n).map (fun i => { idx := i, evt := evt, api := api })

/-- The struct types that have a `Channel` field read by `NewChannelEventFilter`. -/
def EventKind.carriesChannel : EventKind → Bool
  | .AppHomeOpenedEvent => true
  | .AppMentionEvent => true
  | .LinkSharedEvent => true
  | .MemberJoinedChannelEvent => true
  | .MessageEvent => true
  | .PinAddedEvent => true
  | .PinRemovedEvent => true
  | .otherStruct _ => false

/-- The number of handlers that claim C14 says are invoked, in its words: the handler of
index 0, and the handler of index `i + 1` exactly when the handler of index `i` calls its
continuation.  `w` is the handlers' state in which the first handler starts. -/
def specInvokedCount {ω : Type} (api : Client) (evt : Event) :
    List (EventHandlerFunc ω) → ω → Nat
  | [], _ => 0
  | hf :: rest, w =>
    match hf.handlerFunc evt api w with
    | .ret _ _ => 1
    | .callNext w1 _ _ => 1 + specInvokedCount api evt rest w1

/-- The handler `h` of the entry of index `i`, keeping its own record: at each
invocation it first writes down its index and the event and client it was given. -/
def recordingHandler {ω : Type} (i : Nat) (h : HandlerFunc ω) :
    HandlerFunc (ω × List HandlerCall) :=
  fun evt api p => (h evt api p.1).withLog (p.2 ++ [{ idx := i, evt := evt, api := api }])

/-- The entries `hs`, of indices `i, i + 1, …`, with recording handlers and the same
filters. -/
def recordingEntries {ω : Type} :
    Nat → List (EventHandlerFunc ω) → List (EventHandlerFunc (ω × List HandlerCall))
  | _, [] => []
  | i, hf :: rest =>
    { handlerFunc := recordingHandler i hf.handlerFunc, filters := hf.filters }
      :: recordingEntries (i + 1) rest

/-- The router `r` with recording handlers: same client, same filters, same commands. -/
def Router.recording {ω : Type} (r : Router ω) : Router (ω × List HandlerCall) :=
  { api := r.api
    handlers := recordingEntries 0 r.handlers
    commandHandlers := r.commandHandlers.map (fun h =>
      { slashCommand := h.slashCommand
        handlerFunc := fun cmd api p => ((h.handlerFunc cmd api p.1).1,
          ((h.handlerFunc cmd api p.1).2, p.2)) }) }

/-- The handlers' state in which the handler that follows the entries `pre` starts, when
the handlers of `pre` run in order from the state `w`, each one starting in the state in
which the one before called its continuation. -/
def specStateAfter {ω : Type} (api : Client) (evt : Event) :
    List (EventHandlerFunc ω) → ω → ω
  | [], w => w
  | hf :: rest, w =>
    match hf.handlerFunc evt api w with
    | .ret w1 _ => w1
    | .callNext w1 _ _ => specStateAfter api evt rest w1

/-! ## Concrete handlers and filters used at explicit inputs -/

/-- A handler that returns nil without calling its continuation. -/
def stopHandler : HandlerFunc Unit :=
  fun _ _ w => .ret w none

/-- A handler that calls `next(err)` once and then returns nil. -/
def forwardHandler (err : GoError) : HandlerFunc Unit :=
  fun _ _ w => .callNext w err (fun w1 => .ret w1 none)

/-- A handler that returns the error `err` without calling its continuation. -/
def failHandler (err : GoError) : HandlerFunc Unit :=
  fun _ _ w => .ret w err

/-- A filter that rejects every event. -/
def rejectAll : EventFilter :=
  fun _ => false

/-- A `*slackevents.MessageEvent` posted in channel C1. -/
def sampleMessage : Event :=
  ptrEvent .MessageEvent (some { Channel := "C1", rest := "hello" })

/-- A `*slackevents.AppMentionEvent` posted in channel C1. -/
def sampleMention : Event :=
  ptrEvent .AppMentionEvent (some { Channel := "C1", rest := "hi bot" })

/-- A command handler answering with the text `reply`. -/
def replyHandler (reply : String) : SlashCommand → Client → Unit → (Option Msg × GoError) × Unit :=
  fun _ _ w => ((some { Text := reply }, none), w)

/-- Two entries without filters: the first forwards the error "boom", the second ends
the chain. -/
def terminalChain : Router Unit :=
  ((NewRouter ⟨1⟩).AddHandler (forwardHandler (some "boom")) []).AddHandler stopHandler []

/-- One entry without filters whose handler returns the error "db down" directly. -/
def failingChain : Router Unit :=
  (NewRouter ⟨1⟩).AddHandler (failHandler (some "db down")) []

/-- Three entries: the first has a filter that rejects every event and the handler `a`,
the second has no filter and forwards once, the third has no filter and ends the chain. -/
def threeChain (a : HandlerFunc Unit) : Router Unit :=
  (((NewRouter ⟨1⟩).AddHandler a [rejectAll]).AddHandler (forwardHandler none) []).AddHandler
    stopHandler []

/-- Two entries without filters that forward the errors "first" and "last". -/
def forwardingChain : Router Unit :=
  ((NewRouter ⟨1⟩).AddHandler (forwardHandler (some "first")) []).AddHandler
    (forwardHandler (some "last")) []

/-- The scenario of the spec: a handler H1 without filters that forwards, then a handler
H2 with the type filter made from a `*slackevents.MessageEvent` example. -/
def kindChain : Router Unit :=
  ((NewRouter ⟨1⟩).AddHandler (forwardHandler none) []).AddHandler stopHandler
    [NewEventTypeEventFilter sampleMessage]

/-- Three entries whose filter rejects every event and whose handlers forward once. -/
def rejectingChain : Router Unit :=
  (((NewRouter ⟨1⟩).AddHandler (forwardHandler none) [rejectAll]).AddHandler
    (forwardHandler none) [rejectAll]).AddHandler (forwardHandler none) [rejectAll]

/-- A handler over a counter: it increments the counter, then forwards the error
"first". -/
def countingForwarder : HandlerFunc Nat :=
  fun _ _ w => .callNext (w + 1) (some "first") (fun w1 => .ret w1 none)

/-- A handler over a counter: it forwards "cold" when the counter is 0 and "warm"
otherwise. -/
def stateReporter : HandlerFunc Nat :=
  fun _ _ w => .callNext w (if w = 0 then some "cold" else some "warm") (fun w1 => .ret w1 none)

/-- Two entries without filters: `countingForwarder`, then `stateReporter`. -/
def warmingChain : Router Nat :=
  ((NewRouter ⟨1⟩).AddHandler countingForwarder []).AddHandler stateReporter []

/-! ## Lemmas -/

theorem Act.callsExactly_zero {ω : Type} (a : Act ω) (h : a.callsExactly 0) :
    ∃ w result, a = .ret w result := by
  cases a with
  | ret w result => exact ⟨w, result, rfl⟩
  | callNext w err resume => exact absurd h (by simp [Act.callsExactly])

theorem Act.callsExactly_one {ω : Type} (a : Act ω) (h : a.callsExactly 1) :
    ∃ w err resume, a = .callNext w err resume ∧ ∀ w1, (resume w1).callsExactly 0 := by
  cases a with
  | ret w result => exact absurd h (by simp [Act.callsExactly])
  | callNext w err resume => exact ⟨w, err, resume, rfl, fun w1 => h w1⟩

theorem dispatchFrom_cons_match {ω : Type} (api : Client) (evt : Event)
    (hf : EventHandlerFunc ω) (rest : List (EventHandlerFunc ω)) (idx : Nat) (err : GoError)
    (s : DispatchState ω) (hm : doesEventMatch hf evt = true) :
    dispatchFrom api evt (hf :: rest) idx err s
      = (runAct (fun e t => dispatchFrom api evt rest (idx + 1) e t)
          (hf.handlerFunc evt api s.world)
          { s with calls := s.calls ++ [{ idx := idx, evt := evt, api := api }] }).1 := by
  simp [dispatchFrom, hm]

theorem dispatchFrom_cons_nomatch {ω : Type} (api : Client) (evt : Event)
    (hf : EventHandlerFunc ω) (rest : List (EventHandlerFunc ω)) (idx : Nat) (err : GoError)
    (s : DispatchState ω) (hm : doesEventMatch hf evt = false) :
    dispatchFrom api evt (hf :: rest) idx err s
      = (runAct (fun e t => dispatchFrom api evt rest (idx + 1) e t)
          (hf.handlerFunc evt api (dispatchFrom api evt rest (idx + 1) err s).world)
          { dispatchFrom api evt rest (idx + 1) err s with
            calls := (dispatchFrom api evt rest (idx + 1) err s).calls
              ++ [{ idx := idx, evt := evt, api := api }] }).1 := by
  simp [dispatchFrom, hm]

theorem runAct_ret {ω : Type} (next : GoError → DispatchState ω → DispatchState ω)
    (w : ω) (result : GoError) (s : DispatchState ω) :
    runAct next (.ret w result) s = ({ s with world := w }, result) := rfl

theorem runAct_callNext {ω : Type} (next : GoError → DispatchState ω → DispatchState ω)
    (w : ω) (err : GoError) (resume : ω → Act ω) (s : DispatchState ω) :
    runAct next (.callNext w err resume) s
      = runAct next (resume (next err { s with world := w }).world)
          (next err { s with world := w }) := rfl

theorem dispatchFrom_terminal {ω : Type} (api : Client) (evt : Event)
    (hs : List (EventHandlerFunc ω)) :
    ∀ (k idx : Nat) (err : GoError) (s : DispatchState ω),
      (∀ hf ∈ hs, doesEventMatch hf evt = true) →
      (∀ i hf, hs[i]? = some hf → i < k → ∀ w, (hf.handlerFunc evt api w).callsExactly 1) →
      (∀ hf, hs[k]? = some hf → ∀ w, (hf.handlerFunc evt api w).callsExactly 0) →
      k < hs.length →
      (dispatchFrom api evt hs idx err s).returnError = s.returnError
      ∧ (dispatchFrom api evt hs idx err s).calls
          = s.calls ++ callsInOrder evt api idx (k + 1) := by
  induction hs with
  | nil => intro k idx err s _ _ _ hk; simp at hk
  | cons hf rest ih =>
    intro k idx err s hmatch hfwd hstop hk
    have hm : doesEventMatch hf evt = true := hmatch hf (List.mem_cons_self _ _)
    cases k with
    | zero =>
      obtain ⟨w1, result, hact⟩ :=
        Act.callsExactly_zero _ (hstop hf (by simp) s.world)
      rw [dispatchFrom_cons_match api evt hf rest idx err s hm, hact, runAct_ret]
      simp [callsInOrder]
    | succ k =>
      obtain ⟨w1, e1, resume, hact, hres⟩ :=
        Act.callsExactly_one _ (hfwd 0 hf (by simp) (Nat.succ_pos k) s.world)
      have hrest := ih k (idx + 1) e1
        { returnError := s.returnError, world := w1,
          calls := s.calls ++ [{ idx := idx, evt := evt, api := api }] }
        (fun x hx => hmatch x (List.mem_cons_of_mem _ hx))
        (fun i x hx hi => hfwd (i + 1) x (by simpa using hx) (Nat.succ_lt_succ hi))
        (fun x hx => hstop x (by simpa using hx))
        (by simpa using hk)
      obtain ⟨w2, result, hret⟩ := Act.callsExactly_zero _
        (hres (dispatchFrom api evt rest (idx + 1) e1
          { returnError := s.returnError, world := w1,
            calls := s.calls ++ [{ idx := idx, evt := evt, api := api }] }).world)
      rw [dispatchFrom_cons_match api evt hf rest idx err s hm, hact, runAct_callNext]
      simp only []
      rw [hret, runAct_ret]
      refine ⟨hrest.1, ?_⟩
      simp only []
      rw [hrest.2]
      simp [callsInOrder, List.range'_succ]

theorem doesEventMatchLoop_false (evt : Event) (fs : List EventFilter) :
    doesEventMatchLoop evt fs false = fs.any (fun f => f evt) := by
  induction fs with
  | nil => rfl
  | cons f rest ih =>
    cases h : f evt <;> simp [doesEventMatchLoop, h, ih]

theorem doesEventMatchLoop_cons (evt : Event) (f : EventFilter) (fs : List EventFilter)
    (b : Bool) : doesEventMatchLoop evt (f :: fs) b = (f :: fs).any (fun g => g evt) := by
  cases h : f evt <;> simp [doesEventMatchLoop, h, doesEventMatchLoop_false]

theorem handleCommandLoop_skip {ω : Type} (api : Client) (cmd : SlashCommand)
    (pre rest : List (CommandHandlerFunc ω)) (i : Nat) (s : CommandState ω)
    (hpre : ∀ x ∈ pre, x.slashCommand ≠ cmd.Command) :
    handleCommandLoop api cmd (pre ++ rest) i s
      = handleCommandLoop api cmd rest (i + pre.length) s := by
  induction pre generalizing i with
  | nil => simp
  | cons x xs ih =>
    have hx : x.slashCommand ≠ cmd.Command := hpre x (List.mem_cons_self _ _)
    have hxs : ∀ y ∈ xs, y.slashCommand ≠ cmd.Command :=
      fun y hy => hpre y (List.mem_cons_of_mem _ hy)
    have hstep : handleCommandLoop api cmd (x :: (xs ++ rest)) i s
        = handleCommandLoop api cmd (xs ++ rest) (i + 1) s := by
      simp [handleCommandLoop, hx]
    rw [List.cons_append, hstep, ih (i + 1) hxs, List.length_cons]
    congr 1
    omega

/-- Lines 88-91: past the end of the chain `createHandlerFunc` stores `err`. -/
theorem createHandlerFunc_past_end {ω : Type} (r : Router ω) (idx : Nat) (evt : Event)
    (err : GoError) (s : DispatchState ω) (h : r.handlers.length ≤ idx) :
    createHandlerFunc r idx evt err s = { s with returnError := err } := by
  simp [createHandlerFunc, List.drop_of_length_le h, dispatchFrom]

/-- Lines 93-101: at an index inside the chain `createHandlerFunc` calls `next(err)`
when `r.handlers[idx]` does not match, and then executes its handler with the
continuation `next`, which is `createHandlerFunc` at `idx + 1`. -/
theorem createHandlerFunc_step {ω : Type} (r : Router ω) (idx : Nat) (evt : Event)
    (err : GoError) (s : DispatchState ω) (h : idx < r.handlers.length) :
    createHandlerFunc r idx evt err s
      = (runAct (fun e t => createHandlerFunc r (idx + 1) evt e t)
          ((r.handlers[idx]).handlerFunc evt r.api
            (if !doesEventMatch r.handlers[idx] evt
              then createHandlerFunc r (idx + 1) evt err s else s).world)
          { (if !doesEventMatch r.handlers[idx] evt
              then createHandlerFunc r (idx + 1) evt err s else s) with
            calls := (if !doesEventMatch r.handlers[idx] evt
              then createHandlerFunc r (idx + 1) evt err s else s).calls
                ++ [{ idx := idx, evt := evt, api := r.api }] }).1 := by
  unfold createHandlerFunc
  rw [List.drop_eq_getElem_cons h]
  rfl

theorem runAct_recording {ω α : Type}
    (next : GoError → DispatchState (ω × List α) → DispatchState (ω × List α))
    (hnext : ∀ e s, (next e s).world = s.world ∧ (next e s).calls = s.calls)
    (a : Act ω) :
    ∀ (l : List α) (s : DispatchState (ω × List α)),
      (runAct next ((a.withLog l).discardResult) s).1.world.2 = l
      ∧ (runAct next ((a.withLog l).discardResult) s).1.calls = s.calls := by
  induction a with
  | ret w result => intro l s; exact ⟨rfl, rfl⟩
  | callNext w err resume ih =>
    intro l s
    simp only [Act.withLog, Act.discardResult, runAct_callNext]
    rw [(hnext err { s with world := (w, l) }).1]
    have h := ih w l (next err { s with world := (w, l) })
    rw [(hnext err { s with world := (w, l) }).2] at h
    exact h

theorem typed_adapter_single {ω : Type} (k : EventKind) (label : String) (api : Client)
    (fmtV : Event → String) (f : TypedHandlerFunc ω) (m : StructPtr) (w : ω)
    (flt : EventFilter) (hflt : flt (ptrEvent k m) = false) :
    (handleEventRun ((NewRouter api).AddHandler
        (typeAssertingWrapper k label fmtV (recordingTyped f)) [flt])
        (ptrEvent k m) (w, [])).world.2 = [(m, api)]
    ∧ (handleEventRun ((NewRouter api).AddHandler
        (typeAssertingWrapper k label fmtV (recordingTyped f)) [flt])
        (ptrEvent k m) (w, [])).calls = [{ idx := 0, evt := ptrEvent k m, api := api }] := by
  have hassert : assertPtr k (ptrEvent k m) = some m := by
    cases m <;> simp [ptrEvent, assertPtr]
  have hm : doesEventMatch (⟨typeAssertingWrapper k label fmtV (recordingTyped f), [flt]⟩ :
      EventHandlerFunc (ω × List (StructPtr × Client))) (ptrEvent k m) = false := by
    simp [doesEventMatch, doesEventMatchLoop, hflt]
  have hrun := runAct_recording
    (fun e t => dispatchFrom api (ptrEvent k m)
      ([] : List (EventHandlerFunc (ω × List (StructPtr × Client)))) (0 + 1) e t)
    (fun e s => ⟨rfl, rfl⟩) (f m api w) ([] ++ [(m, api)])
    { returnError := none, world := (w, []),
      calls := [] ++ [{ idx := 0, evt := ptrEvent k m, api := api }] }
  simp only [handleEventRun, createHandlerFunc, NewRouter, Router.AddHandler, List.nil_append,
    List.drop_zero, DispatchState.init]
  rw [dispatchFrom_cons_nomatch _ _ _ _ _ _ _ hm]
  simp only [dispatchFrom, typeAssertingWrapper, hassert, recordingTyped]
  simpa using hrun

theorem assertPtr_ptrEvent (k : EventKind) (m : StructPtr) :
    assertPtr k (ptrEvent k m) = some m := by
  cases m <;> simp [ptrEvent, assertPtr]

theorem assertPtr_eq_none_iff (k : EventKind) (evt : Event) :
    assertPtr k evt = none ↔ reflectTypeOf evt ≠ some (.pointer (.named k)) := by
  rcases evt with _ | v
  · simp [assertPtr, reflectTypeOf]
  · rcases v with ⟨k2, d⟩ | v2 | t
    · simp [assertPtr, reflectTypeOf, GoValue.typeOf]
    · rcases v2 with ⟨k2, d⟩ | v3 | t
      · by_cases h : k2 = k <;> simp [assertPtr, reflectTypeOf, GoValue.typeOf, h]
      · simp [assertPtr, reflectTypeOf, GoValue.typeOf]
      · simp [assertPtr, reflectTypeOf, GoValue.typeOf]
    · rcases t with k2 | t2
      · by_cases h : k2 = k <;> simp [assertPtr, reflectTypeOf, GoValue.typeOf, h]
      · simp [assertPtr, reflectTypeOf, GoValue.typeOf]

theorem channelFilterBody_struct (c : String) (k : EventKind) (d : EventData) :
    channelFilterBody c (some (.structVal k d))
      = some (k.carriesChannel && decide (d.Channel = c)) := by
  cases k <;> simp [channelFilterBody, reflectTypeOf, GoValue.typeOf, assertStruct,
    EventKind.carriesChannel]

theorem channelFilterBody_not_struct (c : String) (evt : Event)
    (h : ∀ k d, evt ≠ some (.structVal k d)) : channelFilterBody c evt = some false := by
  rcases evt with _ | v
  · rfl
  · rcases v with ⟨k2, d⟩ | v2 | t
    · exact absurd rfl (h k2 d)
    · rfl
    · rfl

theorem runAct_discardResult {ω : Type} (next : GoError → DispatchState ω → DispatchState ω)
    (a : Act ω) :
    ∀ s, runAct next a.discardResult s = ((runAct next a s).1, none) := by
  induction a with
  | ret w result => intro s; rfl
  | callNext w err resume ih =>
    intro s
    simp only [Act.discardResult, runAct_callNext]
    exact ih _ _

theorem Act.callsAtMost_zero {ω : Type} (a : Act ω) (h : a.callsAtMost 0) :
    ∃ w result, a = .ret w result := by
  cases a with
  | ret w result => exact ⟨w, result, rfl⟩
  | callNext w err resume => exact absurd h (by simp [Act.callsAtMost])

theorem callsInOrder_succ (evt : Event) (api : Client) (idx n : Nat) :
    callsInOrder evt api idx (1 + n)
      = { idx := idx, evt := evt, api := api } :: callsInOrder evt api (idx + 1) n := by
  simp [callsInOrder, Nat.add_comm 1 n, List.range'_succ]

theorem dispatchFrom_all_match_calls {ω : Type} (api : Client) (evt : Event)
    (hs : List (EventHandlerFunc ω)) :
    ∀ (idx : Nat) (err : GoError) (s : DispatchState ω),
      (∀ hf ∈ hs, doesEventMatch hf evt = true) →
      (∀ hf ∈ hs, ∀ w, (hf.handlerFunc evt api w).callsAtMost 1) →
      (dispatchFrom api evt hs idx err s).calls
        = s.calls ++ callsInOrder evt api idx (specInvokedCount api evt hs s.world) := by
  induction hs with
  | nil => intro idx err s _ _; simp [dispatchFrom, specInvokedCount, callsInOrder]
  | cons hf rest ih =>
    intro idx err s hmatch hmost
    have hm : doesEventMatch hf evt = true := hmatch hf (List.mem_cons_self _ _)
    have hbody := hmost hf (List.mem_cons_self _ _) s.world
    rw [dispatchFrom_cons_match api evt hf rest idx err s hm]
    cases hact : hf.handlerFunc evt api s.world with
    | ret w1 result =>
      rw [runAct_ret]
      simp [specInvokedCount, hact, callsInOrder]
    | callNext w1 e1 resume =>
      rw [hact] at hbody
      have hrest := ih (idx + 1) e1
        { returnError := s.returnError, world := w1,
          calls := s.calls ++ [{ idx := idx, evt := evt, api := api }] }
        (fun x hx => hmatch x (List.mem_cons_of_mem _ hx))
        (fun x hx => hmost x (List.mem_cons_of_mem _ hx))
      obtain ⟨w2, result, hret⟩ := Act.callsAtMost_zero _
        (hbody (dispatchFrom api evt rest (idx + 1) e1
          { returnError := s.returnError, world := w1,
            calls := s.calls ++ [{ idx := idx, evt := evt, api := api }] }).world)
      rw [runAct_callNext]
      simp only []
      rw [hret, runAct_ret]
      simp only []
      rw [hrest]
      simp [specInvokedCount, hact, callsInOrder_succ]

theorem dispatchFrom_all_forward {ω : Type} (api : Client) (evt : Event)
    (last : EventHandlerFunc ω) (e : GoError) (pre : List (EventHandlerFunc ω)) :
    ∀ (idx : Nat) (err : GoError) (s : DispatchState ω),
      (∀ hf ∈ pre ++ [last], doesEventMatch hf evt = true) →
      (∀ hf ∈ pre ++ [last], ∀ w, (hf.handlerFunc evt api w).callsExactly 1) →
      (∀ w, ∃ w1 resume, last.handlerFunc evt api w = .callNext w1 e resume) →
      (dispatchFrom api evt (pre ++ [last]) idx err s).returnError = e := by
  induction pre with
  | nil =>
    intro idx err s hmatch hone hlast
    have hm : doesEventMatch last evt = true := hmatch last (by simp)
    obtain ⟨w1, resume, hact⟩ := hlast s.world
    have hbody := hone last (by simp) s.world
    rw [hact] at hbody
    obtain ⟨w2, result, hret⟩ := Act.callsExactly_zero _ (hbody w1)
    rw [List.nil_append, dispatchFrom_cons_match api evt last [] idx err s hm, hact,
      runAct_callNext]
    simp only [dispatchFrom]
    rw [hret, runAct_ret]
  | cons p ps ih =>
    intro idx err s hmatch hone hlast
    have hm : doesEventMatch p evt = true := hmatch p (by simp)
    obtain ⟨w1, e1, resume, hact, hres⟩ := Act.callsExactly_one _ (hone p (by simp) s.world)
    have hrest := ih (idx + 1) e1
      { returnError := s.returnError, world := w1,
        calls := s.calls ++ [{ idx := idx, evt := evt, api := api }] }
      (fun x hx => hmatch x (List.mem_cons_of_mem _ hx))
      (fun x hx => hone x (List.mem_cons_of_mem _ hx)) hlast
    obtain ⟨w2, result, hret⟩ := Act.callsExactly_zero _
      (hres (dispatchFrom api evt (ps ++ [last]) (idx + 1) e1
        { returnError := s.returnError, world := w1,
          calls := s.calls ++ [{ idx := idx, evt := evt, api := api }] }).world)
    rw [List.cons_append, dispatchFrom_cons_match api evt p (ps ++ [last]) idx err s hm, hact,
      runAct_callNext]
    simp only []
    rw [hret, runAct_ret]
    exact hrest

theorem timesCalled_append (a b : List HandlerCall) (j : Nat) :
    timesCalled (a ++ b) j = timesCalled a j + timesCalled b j := by
  simp [timesCalled, List.filter_append]

theorem timesCalled_single (c : HandlerCall) (j : Nat) :
    timesCalled [c] j = if c.idx = j then 1 else 0 := by
  by_cases h : c.idx = j <;> simp [timesCalled, List.filter, h]

theorem dispatchFrom_nomatch_count {ω : Type} (api : Client) (evt : Event)
    (hs : List (EventHandlerFunc ω)) :
    ∀ (idx : Nat) (err : GoError) (s : DispatchState ω),
      (∀ hf ∈ hs, doesEventMatch hf evt = false) →
      (∀ hf ∈ hs, ∀ w, (hf.handlerFunc evt api w).callsExactly 1) →
      (∀ j, timesCalled (dispatchFrom api evt hs idx err s).calls j
        = timesCalled s.calls j
          + (if idx ≤ j ∧ j < idx + hs.length then 2 ^ (j - idx) else 0))
      ∧ (dispatchFrom api evt hs idx err s).calls.length + 1
          = s.calls.length + 2 ^ hs.length := by
  induction hs with
  | nil => intro idx err s _ _; simp [dispatchFrom]
  | cons hf rest ih =>
    intro idx err s hno hone
    have hm : doesEventMatch hf evt = false := hno hf (List.mem_cons_self _ _)
    have hno2 : ∀ x ∈ rest, doesEventMatch x evt = false :=
      fun x hx => hno x (List.mem_cons_of_mem _ hx)
    have hone2 : ∀ x ∈ rest, ∀ w, (x.handlerFunc evt api w).callsExactly 1 :=
      fun x hx => hone x (List.mem_cons_of_mem _ hx)
    have h1 := ih (idx + 1) err s hno2 hone2
    rw [dispatchFrom_cons_nomatch api evt hf rest idx err s hm]
    generalize dispatchFrom api evt rest (idx + 1) err s = s1 at h1 ⊢
    obtain ⟨w1, e1, resume, hact, hres⟩ :=
      Act.callsExactly_one _ (hone hf (List.mem_cons_self _ _) s1.world)
    have h2 := ih (idx + 1) e1
      { returnError := s1.returnError, world := w1,
        calls := s1.calls ++ [{ idx := idx, evt := evt, api := api }] } hno2 hone2
    obtain ⟨w2, result, hret⟩ := Act.callsExactly_zero _
      (hres (dispatchFrom api evt rest (idx + 1) e1
        { returnError := s1.returnError, world := w1,
          calls := s1.calls ++ [{ idx := idx, evt := evt, api := api }] }).world)
    rw [hact, runAct_callNext]
    simp only []
    rw [hret, runAct_ret]
    simp only []
    constructor
    · intro j
      rw [h2.1 j, timesCalled_append, timesCalled_single, h1.1 j]
      simp only [List.length_cons]
      by_cases hlt : j < idx
      · have hne : ¬ idx = j := by omega
        have hc1 : ¬ (idx + 1 ≤ j ∧ j < idx + 1 + rest.length) := by omega
        have hc2 : ¬ (idx ≤ j ∧ j < idx + (rest.length + 1)) := by omega
        simp [hne, hc1, hc2]
      · by_cases heq : idx = j
        · have hc1 : ¬ (idx + 1 ≤ j ∧ j < idx + 1 + rest.length) := by omega
          have hc2 : idx ≤ j ∧ j < idx + (rest.length + 1) := by omega
          subst heq
          simp [hc1]
        · by_cases hin : j < idx + 1 + rest.length
          · have hc1 : idx + 1 ≤ j ∧ j < idx + 1 + rest.length := by omega
            have hc2 : idx ≤ j ∧ j < idx + (rest.length + 1) := by omega
            have hpow : 2 ^ (j - idx) = 2 * 2 ^ (j - (idx + 1)) := by
              have hji : j - idx = (j - (idx + 1)) + 1 := by omega
              rw [hji, pow_succ]
              ring
            rw [if_pos hc1, if_pos hc2, if_neg heq, hpow]
            omega
          · have hc1 : ¬ (idx + 1 ≤ j ∧ j < idx + 1 + rest.length) := by omega
            have hc2 : ¬ (idx ≤ j ∧ j < idx + (rest.length + 1)) := by omega
            simp [heq, hc1, hc2]
    · have hlen := h2.2
      have hlen1 := h1.2
      dsimp only at hlen
      simp only [List.length_append, List.length_cons, List.length_nil] at hlen ⊢
      rw [pow_succ]
      omega

theorem runAct_calls_extends {ω : Type}
    (next : GoError → DispatchState ω → DispatchState ω)
    (hnext : ∀ e t, ∃ x, (next e t).calls = t.calls ++ x) (a : Act ω) :
    ∀ s, ∃ x, (runAct next a s).1.calls = s.calls ++ x := by
  induction a with
  | ret w result => intro s; exact ⟨[], by simp [runAct_ret]⟩
  | callNext w err resume ih =>
    intro s
    obtain ⟨x, hx⟩ := hnext err { s with world := w }
    obtain ⟨y, hy⟩ := ih (next err { s with world := w }).world (next err { s with world := w })
    refine ⟨x ++ y, ?_⟩
    rw [runAct_callNext, hy, hx, List.append_assoc]

theorem dispatchFrom_calls_extends {ω : Type} (api : Client) (evt : Event)
    (hs : List (EventHandlerFunc ω)) :
    ∀ (idx : Nat) (err : GoError) (s : DispatchState ω),
      ∃ x, (dispatchFrom api evt hs idx err s).calls = s.calls ++ x
        ∧ (hs ≠ [] → 1 ≤ timesCalled x idx) := by
  induction hs with
  | nil => intro idx err s; exact ⟨[], by simp [dispatchFrom], fun h => absurd rfl h⟩
  | cons hf rest ih =>
    intro idx err s
    have hnext : ∀ e t, ∃ x, ((fun e t => dispatchFrom api evt rest (idx + 1) e t) e t).calls
        = t.calls ++ x := fun e t => by
      obtain ⟨x, hx, _⟩ := ih (idx + 1) e t
      exact ⟨x, hx⟩
    cases hm : doesEventMatch hf evt with
    | true =>
      rw [dispatchFrom_cons_match api evt hf rest idx err s hm]
      obtain ⟨y, hy⟩ := runAct_calls_extends _ hnext (hf.handlerFunc evt api s.world)
        { s with calls := s.calls ++ [{ idx := idx, evt := evt, api := api }] }
      refine ⟨[{ idx := idx, evt := evt, api := api }] ++ y, ?_, ?_⟩
      · rw [hy]; simp
      · intro _
        rw [timesCalled_append, timesCalled_single]
        simp
    | false =>
      rw [dispatchFrom_cons_nomatch api evt hf rest idx err s hm]
      obtain ⟨x1, hx1, _⟩ := ih (idx + 1) err s
      obtain ⟨y, hy⟩ := runAct_calls_extends _ hnext
        (hf.handlerFunc evt api (dispatchFrom api evt rest (idx + 1) err s).world)
        { dispatchFrom api evt rest (idx + 1) err s with
          calls := (dispatchFrom api evt rest (idx + 1) err s).calls
            ++ [{ idx := idx, evt := evt, api := api }] }
      refine ⟨x1 ++ [{ idx := idx, evt := evt, api := api }] ++ y, ?_, ?_⟩
      · rw [hy, hx1]; simp
      · intro _
        rw [timesCalled_append, timesCalled_append, timesCalled_single]
        simp
        omega

theorem createHandlerFunc_calls_extends {ω : Type} (r : Router ω) (idx : Nat) (evt : Event)
    (err : GoError) (s : DispatchState ω) :
    ∃ x, (createHandlerFunc r idx evt err s).calls = s.calls ++ x
      ∧ (idx < r.handlers.length → 1 ≤ timesCalled x idx) := by
  obtain ⟨x, hx, hcount⟩ :=
    dispatchFrom_calls_extends r.api evt (r.handlers.drop idx) idx err s
  refine ⟨x, hx, fun hlt => hcount ?_⟩
  intro hnil
  have hlen : (r.handlers.drop idx).length = 0 := by rw [hnil]; rfl
  rw [List.length_drop] at hlen
  omega

theorem Act.withLog_callsExactly {ω α : Type} (a : Act ω) :
    ∀ (l : List α) (n : Nat), a.callsExactly n → (a.withLog l).callsExactly n := by
  induction a with
  | ret w result =>
    intro l n h
    cases n with
    | zero => simp [Act.withLog, Act.callsExactly]
    | succ n => exact absurd h (by simp [Act.callsExactly])
  | callNext w err resume ih =>
    intro l n h
    cases n with
    | zero => exact absurd h (by simp [Act.callsExactly])
    | succ n => exact fun p => ih p.1 p.2 n (h p.1)

theorem mem_recordingEntries {ω : Type} (hs : List (EventHandlerFunc ω)) :
    ∀ (i : Nat) (x : EventHandlerFunc (ω × List HandlerCall)), x ∈ recordingEntries i hs →
      ∃ hf ∈ hs, ∃ j, x = { handlerFunc := recordingHandler j hf.handlerFunc,
                              filters := hf.filters } := by
  induction hs with
  | nil => intro i x hx; simp [recordingEntries] at hx
  | cons hf rest ih =>
    intro i x hx
    simp only [recordingEntries, List.mem_cons] at hx
    rcases hx with hx | hx
    · exact ⟨hf, List.mem_cons_self _ _, i, hx⟩
    · obtain ⟨y, hy, j, hj⟩ := ih (i + 1) x hx
      exact ⟨y, List.mem_cons_of_mem _ hy, j, hj⟩

theorem length_recordingEntries {ω : Type} (hs : List (EventHandlerFunc ω)) :
    ∀ i, (recordingEntries i hs).length = hs.length := by
  induction hs with
  | nil => intro i; rfl
  | cons hf rest ih => intro i; simp [recordingEntries, ih]

theorem runAct_withLog_sync {ω : Type}
    (next : GoError → DispatchState (ω × List HandlerCall)
      → DispatchState (ω × List HandlerCall))
    (hnext : ∀ e t, ∃ x, (next e t).world.2 = t.world.2 ++ x
      ∧ (next e t).calls = t.calls ++ x)
    (a : Act ω) :
    ∀ (l : List HandlerCall) (s : DispatchState (ω × List HandlerCall)),
      ∃ x, (runAct next (a.withLog l) s).1.world.2 = l ++ x
        ∧ (runAct next (a.withLog l) s).1.calls = s.calls ++ x := by
  induction a with
  | ret w result => intro l s; exact ⟨[], by simp [Act.withLog, runAct_ret]⟩
  | callNext w err resume ih =>
    intro l s
    obtain ⟨x1, hw1, hc1⟩ := hnext err { s with world := (w, l) }
    obtain ⟨x2, hw2, hc2⟩ := ih (next err { s with world := (w, l) }).world.1
      (next err { s with world := (w, l) }).world.2 (next err { s with world := (w, l) })
    refine ⟨x1 ++ x2, ?_, ?_⟩
    · simp only [Act.withLog, runAct_callNext]
      rw [hw2, hw1, List.append_assoc]
    · simp only [Act.withLog, runAct_callNext]
      rw [hc2, hc1, List.append_assoc]

/-- On recording entries the history `calls` kept by the model and the record kept by
the handlers themselves grow by the same calls. -/
theorem dispatchFrom_recording_sync {ω : Type} (api : Client) (evt : Event)
    (hs : List (EventHandlerFunc ω)) :
    ∀ (idx : Nat) (err : GoError) (s : DispatchState (ω × List HandlerCall)),
      ∃ x, (dispatchFrom api evt (recordingEntries idx hs) idx err s).world.2
          = s.world.2 ++ x
        ∧ (dispatchFrom api evt (recordingEntries idx hs) idx err s).calls
          = s.calls ++ x := by
  induction hs with
  | nil => intro idx err s; exact ⟨[], by simp [recordingEntries, dispatchFrom]⟩
  | cons hf rest ih =>
    intro idx err s
    have hnext : ∀ e t, ∃ x,
        ((fun e t => dispatchFrom api evt (recordingEntries (idx + 1) rest) (idx + 1) e t)
            e t).world.2 = t.world.2 ++ x
        ∧ ((fun e t => dispatchFrom api evt (recordingEntries (idx + 1) rest) (idx + 1) e t)
            e t).calls = t.calls ++ x := fun e t => ih (idx + 1) e t
    cases hm : doesEventMatch (⟨recordingHandler idx hf.handlerFunc, hf.filters⟩ :
        EventHandlerFunc (ω × List HandlerCall)) evt with
    | true =>
      obtain ⟨x2, hw2, hc2⟩ := runAct_withLog_sync _ hnext (hf.handlerFunc evt api s.world.1)
        (s.world.2 ++ [{ idx := idx, evt := evt, api := api }])
        { s with calls := s.calls ++ [{ idx := idx, evt := evt, api := api }] }
      refine ⟨[{ idx := idx, evt := evt, api := api }] ++ x2, ?_, ?_⟩
      · simp only [recordingEntries]
        rw [dispatchFrom_cons_match _ _ _ _ _ _ _ hm]
        simp only [recordingHandler]
        rw [hw2, List.append_assoc]
      · simp only [recordingEntries]
        rw [dispatchFrom_cons_match _ _ _ _ _ _ _ hm]
        simp only [recordingHandler]
        rw [hc2, List.append_assoc]
    | false =>
      obtain ⟨x1, hw1, hc1⟩ := ih (idx + 1) err s
      obtain ⟨x2, hw2, hc2⟩ := runAct_withLog_sync _ hnext
        (hf.handlerFunc evt api
          (dispatchFrom api evt (recordingEntries (idx + 1) rest) (idx + 1) err s).world.1)
        ((dispatchFrom api evt (recordingEntries (idx + 1) rest) (idx + 1) err s).world.2
          ++ [{ idx := idx, evt := evt, api := api }])
        { dispatchFrom api evt (recordingEntries (idx + 1) rest) (idx + 1) err s with
          calls := (dispatchFrom api evt (recordingEntries (idx + 1) rest) (idx + 1) err s).calls
            ++ [{ idx := idx, evt := evt, api := api }] }
      refine ⟨x1 ++ [{ idx := idx, evt := evt, api := api }] ++ x2, ?_, ?_⟩
      · simp only [recordingEntries]
        rw [dispatchFrom_cons_nomatch _ _ _ _ _ _ _ hm]
        simp only [recordingHandler]
        rw [hw2, hw1]
        simp
      · simp only [recordingEntries]
        rw [dispatchFrom_cons_nomatch _ _ _ _ _ _ _ hm]
        simp only [recordingHandler]
        rw [hc2]
        simp only []
        rw [hc1]
        simp

/-- One call of `handleEvent` on the recording router, started with an empty record:
the handlers' own record is the history `calls`. -/
theorem handleEventRun_recording {ω : Type} (r : Router ω) (evt : Event) (w : ω) :
    (handleEventRun r.recording evt (w, [])).world.2
      = (handleEventRun r.recording evt (w, [])).calls := by
  obtain ⟨x, hw, hc⟩ := dispatchFrom_recording_sync r.api evt r.handlers 0 none
    (DispatchState.init (w, []))
  have hrun : handleEventRun r.recording evt (w, [])
      = dispatchFrom r.api evt (recordingEntries 0 r.handlers) 0 none
          (DispatchState.init (w, [])) := by
    simp [handleEventRun, createHandlerFunc, Router.recording]
  rw [hrun, hw, hc]
  rfl

/-- The filter made by `NewChannelEventFilter(c)` never panics, and it is true at an
event iff the event is a struct value of one of the seven types with a `Channel` field
and that field equals `c`; at a struct of any other type it is false. -/
theorem NewChannelEventFilter_characterised (c : String) (evt : Event) :
    channelFilterBody c evt = some (NewChannelEventFilter c evt)
    ∧ (NewChannelEventFilter c evt = true
        ↔ ∃ k d, evt = some (.structVal k d) ∧ k.carriesChannel = true ∧ d.Channel = c)
    ∧ (∀ name d, NewChannelEventFilter c (some (.structVal (.otherStruct name) d)) = false)
    ∧ NewChannelEventFilter c none = false := by
  refine ⟨?_, ?_, ?_, rfl⟩
  · by_cases h : ∃ k d, evt = some (.structVal k d)
    · obtain ⟨k, d, rfl⟩ := h
      simp [NewChannelEventFilter, channelFilterBody_struct]
    · have h2 : ∀ k d, evt ≠ some (.structVal k d) := fun k d he => h ⟨k, d, he⟩
      simp [NewChannelEventFilter, channelFilterBody_not_struct c evt h2]
  · constructor
    · intro hflt
      by_cases h : ∃ k d, evt = some (.structVal k d)
      · obtain ⟨k, d, rfl⟩ := h
        simp [NewChannelEventFilter, channelFilterBody_struct] at hflt
        exact ⟨k, d, rfl, hflt.1, hflt.2⟩
      · have h2 : ∀ k d, evt ≠ some (.structVal k d) := fun k d he => h ⟨k, d, he⟩
        simp [NewChannelEventFilter, channelFilterBody_not_struct c evt h2] at hflt
    · rintro ⟨k, d, rfl, hk, hd⟩
      simp [NewChannelEventFilter, channelFilterBody_struct, hk, hd]
  · intro name d
    simp [NewChannelEventFilter, channelFilterBody_struct, EventKind.carriesChannel]

theorem dispatchFrom_last_forwarded {ω : Type} (api : Client) (evt : Event)
    (last : EventHandlerFunc ω) (pre : List (EventHandlerFunc ω)) :
    ∀ (idx : Nat) (err : GoError) (s : DispatchState ω),
      (∀ hf ∈ pre ++ [last], doesEventMatch hf evt = true) →
      (∀ hf ∈ pre ++ [last], ∀ w, (hf.handlerFunc evt api w).callsExactly 1) →
      ∃ w1 e resume,
        last.handlerFunc evt api (specStateAfter api evt pre s.world) = .callNext w1 e resume
        ∧ (dispatchFrom api evt (pre ++ [last]) idx err s).returnError = e
        ∧ (dispatchFrom api evt (pre ++ [last]) idx err s).calls
            = s.calls ++ callsInOrder evt api idx (pre ++ [last]).length := by
  induction pre with
  | nil =>
    intro idx err s hmatch hone
    have hm : doesEventMatch last evt = true := hmatch last (by simp)
    obtain ⟨w1, e, resume, hact, hres⟩ :=
      Act.callsExactly_one _ (hone last (by simp) s.world)
    obtain ⟨w2, result, hret⟩ := Act.callsExactly_zero _ (hres w1)
    refine ⟨w1, e, resume, by simpa [specStateAfter] using hact, ?_, ?_⟩
    · rw [List.nil_append, dispatchFrom_cons_match api evt last [] idx err s hm, hact,
        runAct_callNext]
      simp only [dispatchFrom]
      rw [hret, runAct_ret]
    · rw [List.nil_append, dispatchFrom_cons_match api evt last [] idx err s hm, hact,
        runAct_callNext]
      simp only [dispatchFrom]
      rw [hret, runAct_ret]
      simp [callsInOrder]
  | cons p ps ih =>
    intro idx err s hmatch hone
    have hm : doesEventMatch p evt = true := hmatch p (by simp)
    obtain ⟨w1, e1, resume1, hact, hres⟩ := Act.callsExactly_one _ (hone p (by simp) s.world)
    obtain ⟨w2, e, resume, hlast, herr, hcalls⟩ := ih (idx + 1) e1
      { returnError := s.returnError, world := w1,
        calls := s.calls ++ [{ idx := idx, evt := evt, api := api }] }
      (fun x hx => hmatch x (List.mem_cons_of_mem _ hx))
      (fun x hx => hone x (List.mem_cons_of_mem _ hx))
    obtain ⟨w3, result, hret⟩ := Act.callsExactly_zero _
      (hres (dispatchFrom api evt (ps ++ [last]) (idx + 1) e1
        { returnError := s.returnError, world := w1,
          calls := s.calls ++ [{ idx := idx, evt := evt, api := api }] }).world)
    refine ⟨w2, e, resume, by simpa [specStateAfter, hact] using hlast, ?_, ?_⟩
    · rw [List.cons_append, dispatchFrom_cons_match api evt p (ps ++ [last]) idx err s hm,
        hact, runAct_callNext]
      simp only []
      rw [hret, runAct_ret]
      exact herr
    · rw [List.cons_append, dispatchFrom_cons_match api evt p (ps ++ [last]) idx err s hm,
        hact, runAct_callNext]
      simp only []
      rw [hret, runAct_ret]
      simp only []
      rw [hcalls]
      simp [callsInOrder, List.range'_succ]

theorem runAct_calls_args {ω : Type} (evt : Event) (api : Client)
    (next : GoError → DispatchState ω → DispatchState ω)
    (hnext : ∀ e t, ∃ x, (next e t).calls = t.calls ++ x
      ∧ ∀ c ∈ x, c.evt = evt ∧ c.api = api) (a : Act ω) :
    ∀ s, ∃ x, (runAct next a s).1.calls = s.calls ++ x
      ∧ ∀ c ∈ x, c.evt = evt ∧ c.api = api := by
  induction a with
  | ret w result => intro s; exact ⟨[], by simp [runAct_ret], by simp⟩
  | callNext w err resume ih =>
    intro s
    obtain ⟨x, hx, hxa⟩ := hnext err { s with world := w }
    obtain ⟨y, hy, hya⟩ :=
      ih (next err { s with world := w }).world (next err { s with world := w })
    refine ⟨x ++ y, ?_, ?_⟩
    · rw [runAct_callNext, hy, hx, List.append_assoc]
    · intro c hc
      rcases List.mem_append.1 hc with h | h
      · exact hxa c h
      · exact hya c h

/-- Every call that one run of the chain adds to the history carries the event and the
client given to `handleEvent`. -/
theorem dispatchFrom_calls_args {ω : Type} (api : Client) (evt : Event)
    (hs : List (EventHandlerFunc ω)) :
    ∀ (idx : Nat) (err : GoError) (s : DispatchState ω),
      ∃ x, (dispatchFrom api evt hs idx err s).calls = s.calls ++ x
        ∧ ∀ c ∈ x, c.evt = evt ∧ c.api = api := by
  induction hs with
  | nil => intro idx err s; exact ⟨[], by simp [dispatchFrom], by simp⟩
  | cons hf rest ih =>
    intro idx err s
    have hnext : ∀ e t, ∃ x,
        ((fun e t => dispatchFrom api evt rest (idx + 1) e t) e t).calls = t.calls ++ x
        ∧ ∀ c ∈ x, c.evt = evt ∧ c.api = api := fun e t => ih (idx + 1) e t
    cases hm : doesEventMatch hf evt with
    | true =>
      rw [dispatchFrom_cons_match api evt hf rest idx err s hm]
      obtain ⟨y, hy, hya⟩ := runAct_calls_args evt api _ hnext (hf.handlerFunc evt api s.world)
        { s with calls := s.calls ++ [{ idx := idx, evt := evt, api := api }] }
      refine ⟨[{ idx := idx, evt := evt, api := api }] ++ y, ?_, ?_⟩
      · rw [hy]; simp
      · intro c hc
        rcases List.mem_append.1 hc with h | h
        · rw [List.mem_singleton] at h
          subst h
          exact ⟨rfl, rfl⟩
        · exact hya c h
    | false =>
      rw [dispatchFrom_cons_nomatch api evt hf rest idx err s hm]
      obtain ⟨x1, hx1, hxa⟩ := ih (idx + 1) err s
      obtain ⟨y, hy, hya⟩ := runAct_calls_args evt api _ hnext
        (hf.handlerFunc evt api (dispatchFrom api evt rest (idx + 1) err s).world)
        { dispatchFrom api evt rest (idx + 1) err s with
          calls := (dispatchFrom api evt rest (idx + 1) err s).calls
            ++ [{ idx := idx, evt := evt, api := api }] }
      refine ⟨x1 ++ [{ idx := idx, evt := evt, api := api }] ++ y, ?_, ?_⟩
      · rw [hy, hx1]; simp
      · intro c hc
        rcases List.mem_append.1 hc with h | h
        · rcases List.mem_append.1 h with h2 | h2
          · exact hxa c h2
          · rw [List.mem_singleton] at h2
            subst h2
            exact ⟨rfl, rfl⟩
        · exact hya c h

/-! ## Theorems -/

/-- C1, evaluated on the code: a chain of one entry whose only filter rejects the event.
The entry does not match, dispatch advances to index 1 (which sets `returnError`), and
then the handler of entry 0 is executed all the same: line 101 is reached after the
`if` of line 96, which has no `return`. -/
theorem C1_nonmatching_handler_is_invoked :
    doesEventMatch (⟨stopHandler, [rejectAll]⟩ : EventHandlerFunc Unit) sampleMessage = false
    ∧ (handleEventRun ((NewRouter ⟨1⟩).AddHandler stopHandler [rejectAll]) sampleMessage ()).calls
        = [{ idx := 0, evt := sampleMessage, api := ⟨1⟩ }] := by
  constructor <;> rfl

/-- C2, evaluated on the code: entry 0 does not match and forwards once, entry 1 matches
and never forwards.  Each handler calls its continuation at most once, and the handler of
entry 1 is executed twice in one call of `handleEvent`. -/
theorem C2_downstream_handler_runs_twice :
    (∀ w, ((forwardHandler none) sampleMessage ⟨1⟩ w).callsAtMost 1)
    ∧ (∀ w, (stopHandler sampleMessage ⟨1⟩ w).callsAtMost 1)
    ∧ (handleEventRun (((NewRouter ⟨1⟩).AddHandler (forwardHandler none) [rejectAll]).AddHandler
          stopHandler []) sampleMessage ()).calls.map (fun c => c.idx) = [1, 0, 1]
    ∧ timesCalled (handleEventRun (((NewRouter ⟨1⟩).AddHandler (forwardHandler none)
          [rejectAll]).AddHandler stopHandler []) sampleMessage ()).calls 1 = 2 := by
  refine ⟨?_, ?_, ?_, ?_⟩
  · intro w; simp [forwardHandler, Act.callsAtMost]
  · intro w; simp [stopHandler, Act.callsAtMost]
  · rfl
  · rfl

/-- C3 as stated fails on `terminalChain`: both entries match, the handler of index 0
forwards once and passes the error "boom", the handler of index 1 never calls its
continuation, and `handleEvent` returns nil, not "boom". -/
theorem C3_accumulated_error_is_dropped :
    (∀ hf ∈ terminalChain.handlers, doesEventMatch hf sampleMessage = true)
    ∧ terminalChain.handlers.map (fun hf => hf.handlerFunc sampleMessage ⟨1⟩ ())
        = [.callNext () (some "boom") (fun w1 => .ret w1 none), .ret () none]
    ∧ handleEvent terminalChain sampleMessage () = none
    ∧ handleEvent terminalChain sampleMessage () ≠ some "boom" := by
  refine ⟨?_, rfl, rfl, ?_⟩
  · intro hf hhf
    simp [terminalChain, NewRouter, Router.AddHandler] at hhf
    rcases hhf with h | h <;> subst h <;> rfl
  · decide

/-- C3, amended: when every entry matches the event, the handlers of indices below `k`
each forward exactly once and the handler of index `k` never calls its continuation,
`handleEvent` executes the handlers of indices `0, …, k` once each in that order, none of
a greater index, and returns nil. -/
theorem C3_terminal_handler_ends_chain {ω : Type} (r : Router ω) (evt : Event) (w : ω)
    (k : Nat) (hk : k < r.handlers.length)
    (hmatch : ∀ hf ∈ r.handlers, doesEventMatch hf evt = true)
    (hfwd : ∀ i hf, r.handlers[i]? = some hf → i < k →
      ∀ w1, (hf.handlerFunc evt r.api w1).callsExactly 1)
    (hstop : ∀ hf, r.handlers[k]? = some hf →
      ∀ w1, (hf.handlerFunc evt r.api w1).callsExactly 0) :
    (handleEventRun r evt w).calls.map (fun c => c.idx) = List.range (k + 1)
    ∧ (∀ c ∈ (handleEventRun r evt w).calls, c.idx ≤ k)
    ∧ handleEvent r evt w = none := by
  have h := dispatchFrom_terminal r.api evt r.handlers k 0 none (DispatchState.init w)
    hmatch hfwd hstop hk
  have hcalls : (handleEventRun r evt w).calls = callsInOrder evt r.api 0 (k + 1) := by
    simpa [handleEventRun, createHandlerFunc, DispatchState.init] using h.2
  refine ⟨?_, ?_, ?_⟩
  · rw [hcalls]
    simp [callsInOrder, List.range_eq_range', Function.comp_def]
  · intro c hc
    rw [hcalls] at hc
    simp only [callsInOrder, List.mem_map, List.mem_range'_1] at hc
    obtain ⟨i, hi, rfl⟩ := hc
    simp only
    omega
  · simpa [handleEvent, handleEventRun, createHandlerFunc, DispatchState.init] using h.1

/-- C3, amended, at `terminalChain` with `k = 1`. -/
theorem C3_terminal_handler_ends_chain_witness :
    (handleEventRun terminalChain sampleMessage ()).calls.map (fun c => c.idx)
        = List.range (1 + 1)
    ∧ (∀ c ∈ (handleEventRun terminalChain sampleMessage ()).calls, c.idx ≤ 1)
    ∧ handleEvent terminalChain sampleMessage () = none :=
  C3_terminal_handler_ends_chain terminalChain sampleMessage () 1 (by decide)
    (by
      intro hf hhf
      simp [terminalChain, NewRouter, Router.AddHandler] at hhf
      rcases hhf with h | h <;> subst h <;> rfl)
    (by
      intro i hf hi hlt w1
      have hi0 : i = 0 := by omega
      subst hi0
      simp [terminalChain, NewRouter, Router.AddHandler] at hi
      subst hi
      simp [forwardHandler, Act.callsExactly])
    (by
      intro hf hi w1
      simp [terminalChain, NewRouter, Router.AddHandler] at hi
      subst hi
      simp [stopHandler, Act.callsExactly])

/-- C4, evaluated on the code: the only entry of `failingChain` matches and its handler
returns the error "db down" without calling its continuation; the handler is executed
and `handleEvent` returns nil, because line 101 drops the value the handler returns. -/
theorem C4_returned_error_is_dropped :
    (∀ hf ∈ failingChain.handlers, doesEventMatch hf sampleMessage = true)
    ∧ failingChain.handlers.map (fun hf => hf.handlerFunc sampleMessage ⟨1⟩ ())
        = [.ret () (some "db down")]
    ∧ (handleEventRun failingChain sampleMessage ()).calls
        = [{ idx := 0, evt := sampleMessage, api := ⟨1⟩ }]
    ∧ handleEvent failingChain sampleMessage () = none := by
  refine ⟨?_, rfl, rfl, rfl⟩
  intro hf hhf
  simp [failingChain, NewRouter, Router.AddHandler] at hhf
  subst hhf
  rfl

/-- C5: `doesEventMatch` is true for an entry without filters, and for an entry with
filters it is the disjunction of the filters at the event: true iff some filter of the
list is true at the event. -/
theorem C5_doesEventMatch_is_or_of_filters {ω : Type} (h : HandlerFunc ω) (evt : Event)
    (f : EventFilter) (fs : List EventFilter) :
    doesEventMatch (⟨h, []⟩ : EventHandlerFunc ω) evt = true
    ∧ doesEventMatch (⟨h, f :: fs⟩ : EventHandlerFunc ω) evt
        = (f :: fs).any (fun g => g evt)
    ∧ (doesEventMatch (⟨h, f :: fs⟩ : EventHandlerFunc ω) evt = true
        ↔ ∃ g ∈ f :: fs, g evt = true) := by
  refine ⟨rfl, ?_, ?_⟩
  · exact doesEventMatchLoop_cons evt f fs true
  · unfold doesEventMatch
    rw [doesEventMatchLoop_cons evt f fs true, List.any_eq_true]

/-- C6: when `pre ++ h :: post` is the command table, no entry of `pre` has the name of
the command and `h` has it, `handleCommand` returns the result of `h` at
`(cmd, r.api)` and executes the handler of index `pre.length` and no other, whatever
`post` holds (entries of the same name included). -/
theorem C6_handleCommand_first_match {ω : Type} (r : Router ω) (cmd : SlashCommand)
    (s : CommandState ω) (pre post : List (CommandHandlerFunc ω)) (h : CommandHandlerFunc ω)
    (htable : r.commandHandlers = pre ++ h :: post)
    (hpre : ∀ x ∈ pre, x.slashCommand ≠ cmd.Command)
    (hname : h.slashCommand = cmd.Command) :
    (handleCommand r cmd s).1 = (h.handlerFunc cmd r.api s.world).1
    ∧ (handleCommand r cmd s).2.world = (h.handlerFunc cmd r.api s.world).2
    ∧ (handleCommand r cmd s).2.invoked = s.invoked ++ [pre.length] := by
  unfold handleCommand
  rw [htable, handleCommandLoop_skip r.api cmd pre (h :: post) 0 s hpre]
  simp [handleCommandLoop, hname]

/-- C6 at a table with two entries named `/deploy`: only the first is executed. -/
theorem C6_handleCommand_first_match_witness :
    (handleCommand (((NewRouter ⟨1⟩).AddCommandHandler "/deploy" (replyHandler "first")
        ).AddCommandHandler "/deploy" (replyHandler "second")) ⟨"/deploy", "now"⟩
        ⟨(), []⟩).1 = ((replyHandler "first") ⟨"/deploy", "now"⟩ ⟨1⟩ ()).1
    ∧ (handleCommand (((NewRouter ⟨1⟩).AddCommandHandler "/deploy" (replyHandler "first")
        ).AddCommandHandler "/deploy" (replyHandler "second")) ⟨"/deploy", "now"⟩
        ⟨(), []⟩).2.world = ((replyHandler "first") ⟨"/deploy", "now"⟩ ⟨1⟩ ()).2
    ∧ (handleCommand (((NewRouter ⟨1⟩).AddCommandHandler "/deploy" (replyHandler "first")
        ).AddCommandHandler "/deploy" (replyHandler "second")) ⟨"/deploy", "now"⟩
        ⟨(), []⟩).2.invoked = [] ++ [([] : List (CommandHandlerFunc Unit)).length] :=
  C6_handleCommand_first_match
    (((NewRouter ⟨1⟩).AddCommandHandler "/deploy" (replyHandler "first")
        ).AddCommandHandler "/deploy" (replyHandler "second"))
    ⟨"/deploy", "now"⟩ ⟨(), []⟩ [] [⟨"/deploy", replyHandler "second"⟩]
    ⟨"/deploy", replyHandler "first"⟩ rfl (by simp) rfl

/-- C7: when no entry of the command table has the name of the command, `handleCommand`
returns a nil message and the error of text "no handler for command " followed by the
name, and executes no handler: the handlers' state and the record of executed handlers
are unchanged. -/
theorem C7_handleCommand_no_match {ω : Type} (r : Router ω) (cmd : SlashCommand)
    (s : CommandState ω)
    (hnone : ∀ x ∈ r.commandHandlers, x.slashCommand ≠ cmd.Command) :
    (handleCommand r cmd s).1 = (none, some ("no handler for command " ++ cmd.Command))
    ∧ (handleCommand r cmd s).2.world = s.world
    ∧ (handleCommand r cmd s).2.invoked = s.invoked := by
  unfold handleCommand
  have h := handleCommandLoop_skip r.api cmd r.commandHandlers [] 0 s hnone
  rw [List.append_nil] at h
  rw [h]
  simp [handleCommandLoop]

/-- C7 at the empty table of a fresh `NewRouter`. -/
theorem C7_handleCommand_no_match_witness :
    (handleCommand (NewRouter ⟨1⟩ : Router Unit) ⟨"/deploy", "now"⟩ ⟨(), []⟩).1
        = (none, some ("no handler for command " ++ "/deploy"))
    ∧ (handleCommand (NewRouter ⟨1⟩ : Router Unit) ⟨"/deploy", "now"⟩ ⟨(), []⟩).2.world = ()
    ∧ (handleCommand (NewRouter ⟨1⟩ : Router Unit) ⟨"/deploy", "now"⟩ ⟨(), []⟩).2.invoked = [] :=
  C7_handleCommand_no_match (NewRouter ⟨1⟩) ⟨"/deploy", "now"⟩ ⟨(), []⟩
    (by intro x hx; simp [NewRouter] at hx)

/-- C8: on a router whose only entry comes from `AddMessageEventHandler(f)`
(respectively `AddAppMentionEventHandler(f)`), `handleEvent` at a `*MessageEvent`
(respectively `*AppMentionEvent`) value invokes `f` exactly once, with that pointer and
the router's client: the record kept by `f` of its invocations is that single one. -/
theorem C8_typed_adapter_invokes_handler_once {ω : Type} (api : Client)
    (fmtV : Event → String) (f : TypedHandlerFunc ω) (m : StructPtr) (w : ω) :
    (handleEventRun ((NewRouter api).AddMessageEventHandler fmtV (recordingTyped f))
        (ptrEvent .MessageEvent m) (w, [])).world.2 = [(m, api)]
    ∧ (handleEventRun ((NewRouter api).AddAppMentionEventHandler fmtV (recordingTyped f))
        (ptrEvent .AppMentionEvent m) (w, [])).world.2 = [(m, api)] := by
  constructor
  · exact (typed_adapter_single .MessageEvent "MessageEvent" api fmtV f m w _
      (by cases m <;> rfl)).1
  · exact (typed_adapter_single .AppMentionEvent "AppMentionEvent" api fmtV f m w _
      (by cases m <;> rfl)).1

/-- C9, evaluated on the code: the single filter of the entry made by
`AddMessageEventHandler` (respectively `AddAppMentionEventHandler`) compares with the
type of `new(*T)`, a pointer to a pointer.  It rejects every `*MessageEvent`
(respectively `*AppMentionEvent`), which the handler narrows, and accepts the value
`new(*T)`, which the handler cannot narrow. -/
theorem C9_adapter_filter_rejects_narrowable_events {ω : Type} (api : Client)
    (fmtV : Event → String) (f : TypedHandlerFunc ω) (m : StructPtr) :
    ((NewRouter api).AddMessageEventHandler fmtV f).handlers.map
        (fun hf => hf.filters.map (fun flt => flt (ptrEvent .MessageEvent m))) = [[false]]
    ∧ assertPtr .MessageEvent (ptrEvent .MessageEvent m) = some m
    ∧ ((NewRouter api).AddAppMentionEventHandler fmtV f).handlers.map
        (fun hf => hf.filters.map (fun flt => flt (ptrEvent .AppMentionEvent m))) = [[false]]
    ∧ assertPtr .AppMentionEvent (ptrEvent .AppMentionEvent m) = some m
    ∧ ((NewRouter api).AddMessageEventHandler fmtV f).handlers.map
        (fun hf => hf.filters.map
          (fun flt => flt (goNew (.pointer (.named .MessageEvent))))) = [[true]]
    ∧ assertPtr .MessageEvent (goNew (.pointer (.named .MessageEvent))) = none := by
  refine ⟨?_, ?_, ?_, ?_, ?_, ?_⟩
  · cases m <;> rfl
  · cases m <;> rfl
  · cases m <;> rfl
  · cases m <;> rfl
  · rfl
  · rfl

/-- C10, evaluated on the code: on a router whose only entry comes from
`AddMessageEventHandler(f)`, `handleEvent` at a `*AppMentionEvent` value executes the
entry's handler, the narrowing fails and the handler returns the type-mismatch error, and
`handleEvent` returns nil.  The same happens at the value `new(*slackevents.MessageEvent)`,
which the entry's filter accepts. -/
theorem C10_type_mismatch_error_is_dropped {ω : Type} (api : Client)
    (fmtV : Event → String) (f : TypedHandlerFunc ω) (m : StructPtr) (w : ω) :
    (handleEventRun ((NewRouter api).AddMessageEventHandler fmtV f)
        (ptrEvent .AppMentionEvent m) w).calls
        = [{ idx := 0, evt := ptrEvent .AppMentionEvent m, api := api }]
    ∧ ((NewRouter api).AddMessageEventHandler fmtV f).handlers.map
        (fun hf => hf.handlerFunc (ptrEvent .AppMentionEvent m) api w)
        = [.ret w (some ("expected MessageEvent, but evt was *slackevents.AppMentionEvent: "
            ++ fmtV (ptrEvent .AppMentionEvent m)))]
    ∧ handleEvent ((NewRouter api).AddMessageEventHandler fmtV f)
        (ptrEvent .AppMentionEvent m) w = none
    ∧ doesEventMatchLoop (goNew (.pointer (.named .MessageEvent)))
        [NewEventTypeEventFilter (goNew (.pointer (.named .MessageEvent)))] true = true
    ∧ (handleEventRun ((NewRouter api).AddMessageEventHandler fmtV f)
        (goNew (.pointer (.named .MessageEvent))) w).calls
        = [{ idx := 0, evt := goNew (.pointer (.named .MessageEvent)), api := api }]
    ∧ ((NewRouter api).AddMessageEventHandler fmtV f).handlers.map
        (fun hf => hf.handlerFunc (goNew (.pointer (.named .MessageEvent))) api w)
        = [.ret w (some ("expected MessageEvent, but evt was **slackevents.MessageEvent: "
            ++ fmtV (goNew (.pointer (.named .MessageEvent)))))]
    ∧ handleEvent ((NewRouter api).AddMessageEventHandler fmtV f)
        (goNew (.pointer (.named .MessageEvent))) w = none := by
  refine ⟨?_, ?_, ?_, rfl, rfl, ?_, rfl⟩
  · cases m <;> rfl
  · cases m <;> simp [Router.AddMessageEventHandler, Router.AddHandler, NewRouter,
      typeAssertingWrapper, assertPtr, ptrEvent, fmtT, reflectTypeOf, GoValue.typeOf,
      GoType.goName, EventKind.goName, String.append_assoc]
  · cases m <;> rfl
  · simp [Router.AddMessageEventHandler, Router.AddHandler, NewRouter,
      typeAssertingWrapper, assertPtr, goNew, zeroValue, fmtT, reflectTypeOf, GoValue.typeOf,
      GoType.goName, EventKind.goName, String.append_assoc]

/-- C11: at an event whose dynamic type is not `*slackevents.MessageEvent`
(respectively `*slackevents.AppMentionEvent`), the handler built by
`AddMessageEventHandler` (respectively `AddAppMentionEventHandler`) returns at once the
error "expected MessageEvent, but evt was T: v", with `T` the event's type, without
calling its continuation and without invoking `f`: the record kept by `f` of its
invocations is unchanged. -/
theorem C11_adapter_fails_closed {ω : Type} (api : Client) (fmtV : Event → String)
    (f : TypedHandlerFunc ω) (evt : Event) (w : ω) (l : List (StructPtr × Client)) :
    (reflectTypeOf evt ≠ some (.pointer (.named .MessageEvent)) →
      ((NewRouter api).AddMessageEventHandler fmtV (recordingTyped f)).handlers.map
          (fun hf => hf.handlerFunc evt api (w, l))
        = [.ret (w, l) (some ("expected MessageEvent, but evt was " ++ fmtT evt ++ ": "
            ++ fmtV evt))])
    ∧ (reflectTypeOf evt ≠ some (.pointer (.named .AppMentionEvent)) →
      ((NewRouter api).AddAppMentionEventHandler fmtV (recordingTyped f)).handlers.map
          (fun hf => hf.handlerFunc evt api (w, l))
        = [.ret (w, l) (some ("expected AppMentionEvent, but evt was " ++ fmtT evt ++ ": "
            ++ fmtV evt))]) := by
  constructor
  · intro h
    have hnone := (assertPtr_eq_none_iff .MessageEvent evt).2 h
    simp [Router.AddMessageEventHandler, Router.AddHandler, NewRouter, typeAssertingWrapper,
      hnone, String.append_assoc]
  · intro h
    have hnone := (assertPtr_eq_none_iff .AppMentionEvent evt).2 h
    simp [Router.AddAppMentionEventHandler, Router.AddHandler, NewRouter,
      typeAssertingWrapper, hnone, String.append_assoc]

/-- C11 at a `*AppMentionEvent` given to the message adapter and a `*MessageEvent` given
to the app-mention adapter. -/
theorem C11_adapter_fails_closed_witness :
    ((NewRouter ⟨1⟩).AddMessageEventHandler (fun _ => "v")
          (recordingTyped (fun _ _ (w : Unit) => Act.ret w none))).handlers.map
          (fun hf => hf.handlerFunc sampleMention ⟨1⟩ ((), []))
        = [.ret ((), []) (some ("expected MessageEvent, but evt was " ++ fmtT sampleMention
            ++ ": " ++ (fun _ => "v") sampleMention))]
    ∧ ((NewRouter ⟨1⟩).AddAppMentionEventHandler (fun _ => "v")
          (recordingTyped (fun _ _ (w : Unit) => Act.ret w none))).handlers.map
          (fun hf => hf.handlerFunc sampleMessage ⟨1⟩ ((), []))
        = [.ret ((), []) (some ("expected AppMentionEvent, but evt was " ++ fmtT sampleMessage
            ++ ": " ++ (fun _ => "v") sampleMessage))] :=
  ⟨(C11_adapter_fails_closed ⟨1⟩ (fun _ => "v") (fun _ _ (w : Unit) => Act.ret w none)
      sampleMention () []).1 (by decide),
   (C11_adapter_fails_closed ⟨1⟩ (fun _ => "v") (fun _ _ (w : Unit) => Act.ret w none)
      sampleMessage () []).2 (by decide)⟩

/-- C12, evaluated on the code: at `&slackevents.MessageEvent{Channel: "C1"}`, an event
of the message variant whose channel is C1 and which the message adapter narrows, the
filter made by `NewChannelEventFilter("C1")` returns false; it returns true only at the
struct value.  The type switch has no pointer case, so every event with a channel that
arrives as a pointer falls to the default branch. -/
theorem C12_channel_filter_misses_pointer_events :
    sampleMessage = ptrEvent .MessageEvent (some { Channel := "C1", rest := "hello" })
    ∧ assertPtr .MessageEvent sampleMessage = some (some { Channel := "C1", rest := "hello" })
    ∧ EventKind.carriesChannel .MessageEvent = true
    ∧ channelFilterBody "C1" sampleMessage = some false
    ∧ NewChannelEventFilter "C1" sampleMessage = false
    ∧ NewChannelEventFilter "C1"
        (some (.structVal .MessageEvent { Channel := "C1", rest := "hello" })) = true
    ∧ (∀ (c : String) (k : EventKind) (d : EventData),
        NewChannelEventFilter c (ptrEvent k (some { d with Channel := c })) = false) := by
  refine ⟨rfl, rfl, rfl, rfl, rfl, ?_, fun c k d => rfl⟩
  simp [NewChannelEventFilter, channelFilterBody_struct, EventKind.carriesChannel]

/-- C13, evaluated on the code: in `threeChain a` the entry A of index 0 does not match,
B and C match and B forwards once.  When A's handler ends the chain the handlers run are
B, C, A: A is invoked.  When A's handler forwards once they are B, C, A, B, C: A is
invoked and C is invoked twice. -/
theorem C13_nonmatching_first_entry_is_invoked :
    (threeChain stopHandler).handlers.map (fun hf => doesEventMatch hf sampleMessage)
        = [false, true, true]
    ∧ (handleEventRun (threeChain stopHandler) sampleMessage ()).calls.map (fun c => c.idx)
        = [1, 2, 0]
    ∧ timesCalled (handleEventRun (threeChain stopHandler) sampleMessage ()).calls 0 = 1
    ∧ (handleEventRun (threeChain (forwardHandler none)) sampleMessage ()).calls.map
        (fun c => c.idx) = [1, 2, 0, 1, 2]
    ∧ timesCalled (handleEventRun (threeChain (forwardHandler none)) sampleMessage ()).calls 2
        = 2 := by
  refine ⟨rfl, rfl, rfl, rfl, rfl⟩

/-- C16: `AddHandler(f, filters...)` leaves `r.handlers` equal to the previous list
followed by the entry `(f, filters)` and leaves `r.commandHandlers` and `r.api` as they
were; `AddCommandHandler(name, h)` appends the entry `(name, h)` to `r.commandHandlers`
and leaves `r.handlers` and `r.api` as they were. -/
theorem C16_registration_appends {ω : Type} (r : Router ω) (f : HandlerFunc ω)
    (filters : List EventFilter) (name : String)
    (h : SlashCommand → Client → ω → (Option Msg × GoError) × ω) :
    (r.AddHandler f filters).handlers = r.handlers ++ [⟨f, filters⟩]
    ∧ (r.AddHandler f filters).handlers.take r.handlers.length = r.handlers
    ∧ (r.AddHandler f filters).handlers.length = r.handlers.length + 1
    ∧ (r.AddHandler f filters).commandHandlers = r.commandHandlers
    ∧ (r.AddHandler f filters).api = r.api
    ∧ (r.AddCommandHandler name h).commandHandlers = r.commandHandlers ++ [⟨name, h⟩]
    ∧ (r.AddCommandHandler name h).commandHandlers.take r.commandHandlers.length
        = r.commandHandlers
    ∧ (r.AddCommandHandler name h).commandHandlers.length = r.commandHandlers.length + 1
    ∧ (r.AddCommandHandler name h).handlers = r.handlers
    ∧ (r.AddCommandHandler name h).api = r.api := by
  refine ⟨rfl, ?_, ?_, rfl, rfl, rfl, ?_, ?_, rfl, rfl⟩
  · simp [Router.AddHandler]
  · simp [Router.AddHandler]
  · simp [Router.AddCommandHandler]
  · simp [Router.AddCommandHandler]

/-- C18: at a `*MessageEvent` (respectively `*AppMentionEvent`) value the handler built by
`AddMessageEventHandler(f)` (respectively `AddAppMentionEventHandler(f)`) is `f` at the
narrowed pointer and the same client, run with the continuation the handler was given:
with any continuation it leaves the state that one run of `f` leaves, and it returns nil
whatever `f` returns.  The record kept by `f` of its invocations gains that one. -/
theorem C18_adapter_runs_handler_and_drops_result {ω : Type} (api client : Client)
    (fmtV : Event → String) (f : TypedHandlerFunc ω) (m : StructPtr) (w : ω)
    (l : List (StructPtr × Client))
    (next : GoError → DispatchState ω → DispatchState ω) (s : DispatchState ω) :
    ((NewRouter api).AddMessageEventHandler fmtV f).handlers.map
        (fun hf => runAct next (hf.handlerFunc (ptrEvent .MessageEvent m) client w) s)
      = [((runAct next (f m client w) s).1, none)]
    ∧ ((NewRouter api).AddAppMentionEventHandler fmtV f).handlers.map
        (fun hf => runAct next (hf.handlerFunc (ptrEvent .AppMentionEvent m) client w) s)
      = [((runAct next (f m client w) s).1, none)]
    ∧ ((NewRouter api).AddMessageEventHandler fmtV (recordingTyped f)).handlers.map
        (fun hf => hf.handlerFunc (ptrEvent .MessageEvent m) client (w, l))
      = [((f m client w).withLog (l ++ [(m, client)])).discardResult]
    ∧ ((NewRouter api).AddAppMentionEventHandler fmtV (recordingTyped f)).handlers.map
        (fun hf => hf.handlerFunc (ptrEvent .AppMentionEvent m) client (w, l))
      = [((f m client w).withLog (l ++ [(m, client)])).discardResult] := by
  refine ⟨?_, ?_, ?_, ?_⟩
  · simp [Router.AddMessageEventHandler, Router.AddHandler, NewRouter, typeAssertingWrapper,
      assertPtr_ptrEvent, runAct_discardResult]
  · simp [Router.AddAppMentionEventHandler, Router.AddHandler, NewRouter,
      typeAssertingWrapper, assertPtr_ptrEvent, runAct_discardResult]
  · simp [Router.AddMessageEventHandler, Router.AddHandler, NewRouter, typeAssertingWrapper,
      assertPtr_ptrEvent, recordingTyped]
  · simp [Router.AddAppMentionEventHandler, Router.AddHandler, NewRouter,
      typeAssertingWrapper, assertPtr_ptrEvent, recordingTyped]

/-- C19: the filter made by `NewChannelEventFilter(c)` is false at every pointer value,
even a `*MessageEvent` or `*AppMentionEvent` whose `Channel` is `c`; so no event is both
narrowed by a typed adapter and accepted by the filter. -/
theorem C19_channel_filter_rejects_pointers (c : String) (k : EventKind) (rest : String)
    (v : GoValue) (t : GoType) (m : StructPtr) (evt : Event) :
    NewChannelEventFilter c (some (.addr v)) = false
    ∧ NewChannelEventFilter c (some (.nilPtr t)) = false
    ∧ NewChannelEventFilter c (ptrEvent k (some { Channel := c, rest := rest })) = false
    ∧ NewChannelEventFilter c (ptrEvent k m) = false
    ∧ assertPtr k (ptrEvent k m) = some m
    ∧ ((assertPtr k evt).isSome && NewChannelEventFilter c evt) = false := by
  refine ⟨rfl, rfl, rfl, ?_, assertPtr_ptrEvent k m, ?_⟩
  · cases m <;> rfl
  · rcases evt with _ | v2
    · rfl
    · rcases v2 with ⟨k2, d⟩ | v3 | t2
      · simp [assertPtr]
      · exact Bool.and_false _
      · exact Bool.and_false _

/-- C14: when every entry matches the event and every handler calls its continuation at
most once, `handleEvent` executes the handlers of indices `0, 1, …` in that order, as many
as the claim counts (the first, and the next one exactly when a handler calls its
continuation), each with the same event and the router's client. -/
theorem C14_matching_chain_runs_in_order {ω : Type} (r : Router ω) (evt : Event) (w : ω)
    (hmatch : ∀ hf ∈ r.handlers, doesEventMatch hf evt = true)
    (hmost : ∀ hf ∈ r.handlers, ∀ w1, (hf.handlerFunc evt r.api w1).callsAtMost 1) :
    (handleEventRun r evt w).calls
        = callsInOrder evt r.api 0 (specInvokedCount r.api evt r.handlers w)
    ∧ (handleEventRun r evt w).calls.map (fun c => c.idx)
        = List.range (specInvokedCount r.api evt r.handlers w)
    ∧ (∀ c ∈ (handleEventRun r evt w).calls, c.evt = evt ∧ c.api = r.api) := by
  have h := dispatchFrom_all_match_calls r.api evt r.handlers 0 none (DispatchState.init w)
    hmatch hmost
  have hcalls : (handleEventRun r evt w).calls
      = callsInOrder evt r.api 0 (specInvokedCount r.api evt r.handlers w) := by
    simpa [handleEventRun, createHandlerFunc, DispatchState.init] using h
  refine ⟨hcalls, ?_, ?_⟩
  · rw [hcalls]
    simp [callsInOrder, List.range_eq_range', Function.comp_def]
  · intro c hc
    rw [hcalls] at hc
    simp only [callsInOrder, List.mem_map] at hc
    obtain ⟨i, _, rfl⟩ := hc
    exact ⟨rfl, rfl⟩

/-- C14 at `kindChain` and a `*slackevents.MessageEvent`. -/
theorem C14_matching_chain_runs_in_order_witness :
    (handleEventRun kindChain sampleMessage ()).calls
        = callsInOrder sampleMessage kindChain.api 0
            (specInvokedCount kindChain.api sampleMessage kindChain.handlers ())
    ∧ (handleEventRun kindChain sampleMessage ()).calls.map (fun c => c.idx)
        = List.range (specInvokedCount kindChain.api sampleMessage kindChain.handlers ())
    ∧ (∀ c ∈ (handleEventRun kindChain sampleMessage ()).calls,
        c.evt = sampleMessage ∧ c.api = kindChain.api) :=
  C14_matching_chain_runs_in_order kindChain sampleMessage ()
    (by
      intro hf hhf
      simp [kindChain, NewRouter, Router.AddHandler] at hhf
      rcases hhf with h | h <;> subst h <;> rfl)
    (by
      intro hf hhf w1
      simp [kindChain, NewRouter, Router.AddHandler] at hhf
      rcases hhf with h | h <;> subst h
      · simp [forwardHandler, Act.callsAtMost]
      · simp [stopHandler, Act.callsAtMost])

/-- C15: on an empty chain `handleEvent` returns nil.  On a chain `pre ++ [last]` whose
entries all match and whose handlers each call their continuation exactly once, the
handler of `last`, in the state in which it is started (the one the handlers of `pre`
leave it, run in order from `w`), calls its continuation with an error `e`, and
`handleEvent` returns that `e`, whatever the handlers of `pre` pass; every handler is
executed once, in order. -/
theorem C15_handleEvent_returns_last_forwarded_error {ω : Type} (r : Router ω)
    (evt : Event) (w : ω) :
    (r.handlers = [] → handleEvent r evt w = none)
    ∧ (∀ (pre : List (EventHandlerFunc ω)) (last : EventHandlerFunc ω),
        r.handlers = pre ++ [last] →
        (∀ hf ∈ r.handlers, doesEventMatch hf evt = true) →
        (∀ hf ∈ r.handlers, ∀ w1, (hf.handlerFunc evt r.api w1).callsExactly 1) →
        ∃ w1 e resume,
          last.handlerFunc evt r.api (specStateAfter r.api evt pre w) = .callNext w1 e resume
          ∧ handleEvent r evt w = e
          ∧ (handleEventRun r evt w).calls = callsInOrder evt r.api 0 r.handlers.length) := by
  constructor
  · intro hnil
    simp [handleEvent, handleEventRun, createHandlerFunc, hnil, dispatchFrom]
  · intro pre last hchain hmatch hone
    rw [hchain] at hmatch hone
    obtain ⟨w1, e, resume, hact, herr, hcalls⟩ :=
      dispatchFrom_last_forwarded r.api evt last pre 0 none (DispatchState.init w)
        hmatch hone
    refine ⟨w1, e, resume, hact, ?_, ?_⟩
    · simpa [handleEvent, handleEventRun, createHandlerFunc, hchain] using herr
    · simpa [handleEventRun, createHandlerFunc, hchain, DispatchState.init] using hcalls

/-- C15 at the empty chain of a fresh router and at `warmingChain`: its first handler
changes the handlers' state and passes "first", so its last handler is started in state
1, passes "warm", and `handleEvent` returns "warm". -/
theorem C15_handleEvent_returns_last_forwarded_error_witness :
    handleEvent (NewRouter ⟨1⟩ : Router Nat) sampleMessage 0 = none
    ∧ (∃ w1 e resume,
        stateReporter sampleMessage warmingChain.api
            (specStateAfter warmingChain.api sampleMessage [⟨countingForwarder, []⟩] 0)
          = .callNext w1 e resume
        ∧ handleEvent warmingChain sampleMessage 0 = e
        ∧ (handleEventRun warmingChain sampleMessage 0).calls
            = callsInOrder sampleMessage warmingChain.api 0 warmingChain.handlers.length)
    ∧ specStateAfter warmingChain.api sampleMessage [⟨countingForwarder, []⟩] 0 = 1
    ∧ handleEvent warmingChain sampleMessage 0 = some "warm" :=
  ⟨(C15_handleEvent_returns_last_forwarded_error (NewRouter ⟨1⟩ : Router Nat)
      sampleMessage 0).1 rfl,
   (C15_handleEvent_returns_last_forwarded_error warmingChain sampleMessage 0).2
      [⟨countingForwarder, []⟩] ⟨stateReporter, []⟩ rfl
      (by
        intro hf hhf
        simp [warmingChain, NewRouter, Router.AddHandler] at hhf
        rcases hhf with h | h <;> subst h <;> rfl)
      (by
        intro hf hhf w1
        simp [warmingChain, NewRouter, Router.AddHandler] at hhf
        rcases hhf with h | h <;> subst h
        · simp [countingForwarder, Act.callsExactly]
        · simp [stateReporter, Act.callsExactly]),
   rfl, rfl⟩

/-- C17: when the entry `hf` of index `i` does not match the event, `createHandlerFunc`
at `i` first runs the chain from `i + 1` with the current error, and in the state that
leaves it executes the handler of `hf` with the event, the router's client and the
continuation that resumes at `i + 1`: the handler of index `i` is executed.  If that
handler calls its continuation, the chain from `i + 1` runs again with the error it
passes, so the handler of index `i + 1`, when there is one, is executed at least twice. -/
theorem C17_nonmatching_entry_falls_through {ω : Type} (r : Router ω) (i : Nat)
    (hf : EventHandlerFunc ω) (evt : Event) (err : GoError) (s : DispatchState ω)
    (hget : r.handlers[i]? = some hf) (hm : doesEventMatch hf evt = false) :
    createHandlerFunc r i evt err s
      = (runAct (fun e t => createHandlerFunc r (i + 1) evt e t)
          (hf.handlerFunc evt r.api (createHandlerFunc r (i + 1) evt err s).world)
          { returnError := (createHandlerFunc r (i + 1) evt err s).returnError,
            world := (createHandlerFunc r (i + 1) evt err s).world,
            calls := (createHandlerFunc r (i + 1) evt err s).calls
              ++ [{ idx := i, evt := evt, api := r.api }] }).1
    ∧ timesCalled s.calls i + 1 ≤ timesCalled (createHandlerFunc r i evt err s).calls i
    ∧ (∀ w1 e1 resume,
        hf.handlerFunc evt r.api (createHandlerFunc r (i + 1) evt err s).world
          = .callNext w1 e1 resume →
        createHandlerFunc r i evt err s
          = (runAct (fun e t => createHandlerFunc r (i + 1) evt e t)
              (resume (createHandlerFunc r (i + 1) evt e1
                { returnError := (createHandlerFunc r (i + 1) evt err s).returnError,
                  world := w1,
                  calls := (createHandlerFunc r (i + 1) evt err s).calls
                    ++ [{ idx := i, evt := evt, api := r.api }] }).world)
              (createHandlerFunc r (i + 1) evt e1
                { returnError := (createHandlerFunc r (i + 1) evt err s).returnError,
                  world := w1,
                  calls := (createHandlerFunc r (i + 1) evt err s).calls
                    ++ [{ idx := i, evt := evt, api := r.api }] })).1
        ∧ (i + 1 < r.handlers.length →
            timesCalled s.calls (i + 1) + 2
              ≤ timesCalled (createHandlerFunc r i evt err s).calls (i + 1))) := by
  obtain ⟨hi, hfi⟩ := List.getElem?_eq_some.1 hget
  have hstep : createHandlerFunc r i evt err s
      = (runAct (fun e t => createHandlerFunc r (i + 1) evt e t)
          (hf.handlerFunc evt r.api (createHandlerFunc r (i + 1) evt err s).world)
          { returnError := (createHandlerFunc r (i + 1) evt err s).returnError,
            world := (createHandlerFunc r (i + 1) evt err s).world,
            calls := (createHandlerFunc r (i + 1) evt err s).calls
              ++ [{ idx := i, evt := evt, api := r.api }] }).1 := by
    rw [createHandlerFunc_step r i evt err s hi, hfi]
    simp [hm]
  have hnext : ∀ e t, ∃ x, ((fun e t => createHandlerFunc r (i + 1) evt e t) e t).calls
      = t.calls ++ x := fun e t => by
    obtain ⟨x, hx, _⟩ := createHandlerFunc_calls_extends r (i + 1) evt e t
    exact ⟨x, hx⟩
  refine ⟨hstep, ?_, ?_⟩
  · obtain ⟨x, hx, hcount⟩ := createHandlerFunc_calls_extends r i evt err s
    rw [hx, timesCalled_append]
    have := hcount hi
    omega
  · intro w1 e1 resume hact
    have heq := hstep
    rw [hact, runAct_callNext] at heq
    refine ⟨heq, fun hlt => ?_⟩
    obtain ⟨x1, hx1, hc1⟩ := createHandlerFunc_calls_extends r (i + 1) evt err s
    obtain ⟨x2, hx2, hc2⟩ := createHandlerFunc_calls_extends r (i + 1) evt e1
      { returnError := (createHandlerFunc r (i + 1) evt err s).returnError,
        world := w1,
        calls := (createHandlerFunc r (i + 1) evt err s).calls
          ++ [{ idx := i, evt := evt, api := r.api }] }
    obtain ⟨y, hy⟩ := runAct_calls_extends _ hnext
      (resume (createHandlerFunc r (i + 1) evt e1
        { returnError := (createHandlerFunc r (i + 1) evt err s).returnError,
          world := w1,
          calls := (createHandlerFunc r (i + 1) evt err s).calls
            ++ [{ idx := i, evt := evt, api := r.api }] }).world)
      (createHandlerFunc r (i + 1) evt e1
        { returnError := (createHandlerFunc r (i + 1) evt err s).returnError,
          world := w1,
          calls := (createHandlerFunc r (i + 1) evt err s).calls
            ++ [{ idx := i, evt := evt, api := r.api }] })
    rw [heq, hy, hx2]
    simp only []
    rw [hx1]
    simp only [timesCalled_append]
    have h1 := hc1 hlt
    have h2 := hc2 hlt
    omega

/-- C17 at index 0 of `rejectingChain`, whose handlers forward once. -/
theorem C17_nonmatching_entry_falls_through_witness :
    timesCalled (DispatchState.init ()).calls 0 + 1
      ≤ timesCalled (createHandlerFunc rejectingChain 0 sampleMessage none
          (DispatchState.init ())).calls 0
    ∧ timesCalled (DispatchState.init ()).calls (0 + 1) + 2
      ≤ timesCalled (createHandlerFunc rejectingChain 0 sampleMessage none
          (DispatchState.init ())).calls (0 + 1) :=
  ⟨(C17_nonmatching_entry_falls_through rejectingChain 0 ⟨forwardHandler none, [rejectAll]⟩
      sampleMessage none (DispatchState.init ()) rfl rfl).2.1,
   ((C17_nonmatching_entry_falls_through rejectingChain 0 ⟨forwardHandler none, [rejectAll]⟩
      sampleMessage none (DispatchState.init ()) rfl rfl).2.2 () none
      (fun w1 => .ret w1 none) rfl).2 (by decide)⟩

/-- C20: on a chain of `n` entries none of which matches the event and whose handlers
each call their continuation exactly once, one call of `handleEvent` invokes the handler
of index `i` exactly `2 ^ i` times for every `i < n`, and `2 ^ n - 1` handlers in all.
The invocations are counted in the record that the handlers themselves keep
(`Router.recording`), and the history kept by the model agrees with it. -/
theorem C20_nonmatching_chain_doubles {ω : Type} (r : Router ω) (evt : Event) (w : ω)
    (n : Nat) (hn : r.handlers.length = n)
    (hno : ∀ hf ∈ r.handlers, doesEventMatch hf evt = false)
    (hone : ∀ hf ∈ r.handlers, ∀ w1, (hf.handlerFunc evt r.api w1).callsExactly 1) :
    (∀ i, i < n → timesCalled (handleEventRun r.recording evt (w, [])).world.2 i = 2 ^ i)
    ∧ (handleEventRun r.recording evt (w, [])).world.2.length = 2 ^ n - 1
    ∧ (∀ c ∈ (handleEventRun r.recording evt (w, [])).world.2,
        c.idx < n ∧ c.evt = evt ∧ c.api = r.api)
    ∧ (∀ i, i < n → timesCalled (handleEventRun r evt w).calls i = 2 ^ i)
    ∧ (handleEventRun r evt w).calls.length = 2 ^ n - 1 := by
  subst hn
  have hcount : ∀ {σ : Type} (api : Client) (hs : List (EventHandlerFunc σ)) (w0 : σ),
      (∀ hf ∈ hs, doesEventMatch hf evt = false) →
      (∀ hf ∈ hs, ∀ w1, (hf.handlerFunc evt api w1).callsExactly 1) →
      (∀ i, timesCalled (dispatchFrom api evt hs 0 none (DispatchState.init w0)).calls i
          = if i < hs.length then 2 ^ i else 0)
      ∧ (dispatchFrom api evt hs 0 none (DispatchState.init w0)).calls.length
          = 2 ^ hs.length - 1 := by
    intro σ api hs w0 h1 h2
    have h := dispatchFrom_nomatch_count api evt hs 0 none (DispatchState.init w0) h1 h2
    constructor
    · intro i
      rw [h.1 i]
      by_cases hi : i < hs.length
      · have hc : 0 ≤ i ∧ i < 0 + hs.length := by omega
        rw [if_pos hc, if_pos hi]
        simp [DispatchState.init, timesCalled]
      · have hc : ¬ (0 ≤ i ∧ i < 0 + hs.length) := by omega
        rw [if_neg hc, if_neg hi]
        simp [DispatchState.init, timesCalled]
    · have hlen := h.2
      have hinit : (DispatchState.init w0).calls.length = 0 := rfl
      rw [hinit] at hlen
      omega
  have hrunR : handleEventRun r.recording evt (w, [])
      = dispatchFrom r.api evt (recordingEntries 0 r.handlers) 0 none
          (DispatchState.init (w, [])) := by
    simp [handleEventRun, createHandlerFunc, Router.recording]
  have hrun : handleEventRun r evt w
      = dispatchFrom r.api evt r.handlers 0 none (DispatchState.init w) := by
    simp [handleEventRun, createHandlerFunc]
  have hnoR : ∀ x ∈ recordingEntries 0 r.handlers, doesEventMatch x evt = false := by
    intro x hx
    obtain ⟨hf, hhf, j, rfl⟩ := mem_recordingEntries r.handlers 0 x hx
    exact hno hf hhf
  have honeR : ∀ x ∈ recordingEntries 0 r.handlers,
      ∀ w1, (x.handlerFunc evt r.api w1).callsExactly 1 := by
    intro x hx w1
    obtain ⟨hf, hhf, j, rfl⟩ := mem_recordingEntries r.handlers 0 x hx
    exact Act.withLog_callsExactly _ _ 1 (hone hf hhf w1.1)
  have hR := hcount r.api (recordingEntries 0 r.handlers) (w, []) hnoR honeR
  rw [length_recordingEntries] at hR
  have hP := hcount r.api r.handlers w hno hone
  have hsync := handleEventRun_recording r evt w
  refine ⟨?_, ?_, ?_, ?_, ?_⟩
  · intro i hi
    rw [hsync, hrunR, hR.1 i, if_pos hi]
  · rw [hsync, hrunR, hR.2]
  · intro c hc
    rw [hsync, hrunR] at hc
    obtain ⟨x, hx, hargs⟩ := dispatchFrom_calls_args r.api evt
      (recordingEntries 0 r.handlers) 0 none (DispatchState.init (w, []))
    have hcx : c ∈ x := by
      rw [hx] at hc
      simpa [DispatchState.init] using hc
    refine ⟨?_, (hargs c hcx).1, (hargs c hcx).2⟩
    by_contra hge
    have hzero := hR.1 c.idx
    rw [if_neg hge] at hzero
    have hpos : 0 < timesCalled
        (dispatchFrom r.api evt (recordingEntries 0 r.handlers) 0 none
          (DispatchState.init (w, []))).calls c.idx := by
      unfold timesCalled
      exact List.length_pos_of_mem (List.mem_filter.2 ⟨hc, by simp⟩)
    omega
  · intro i hi
    rw [hrun, hP.1 i, if_pos hi]
  · rw [hrun, hP.2]

/-- C20 at `rejectingChain`, with `n = 3`: the handlers record 1, 2 and 4 invocations. -/
theorem C20_nonmatching_chain_doubles_witness :
    (∀ i, i < 3 →
      timesCalled (handleEventRun rejectingChain.recording sampleMessage ((), [])).world.2 i
        = 2 ^ i)
    ∧ (handleEventRun rejectingChain.recording sampleMessage ((), [])).world.2.length
        = 2 ^ 3 - 1
    ∧ (∀ c ∈ (handleEventRun rejectingChain.recording sampleMessage ((), [])).world.2,
        c.idx < 3 ∧ c.evt = sampleMessage ∧ c.api = rejectingChain.api)
    ∧ (∀ i, i < 3 → timesCalled (handleEventRun rejectingChain sampleMessage ()).calls i = 2 ^ i)
    ∧ (handleEventRun rejectingChain sampleMessage ()).calls.length = 2 ^ 3 - 1 :=
  C20_nonmatching_chain_doubles rejectingChain sampleMessage () 3 rfl
    (by
      intro hf hhf
      simp [rejectingChain, NewRouter, Router.AddHandler] at hhf
      subst hhf
      rfl)
    (by
      intro hf hhf w1
      simp [rejectingChain, NewRouter, Router.AddHandler] at hhf
      subst hhf
      simp [forwardHandler, Act.callsExactly])

end Slackbot
